import Mathlib

set_option maxRecDepth 40000

/-!
Verification development for the `manual-approval` custom-job handler
(`internal/manual_approval/execute.go` and `cmd/`).

The Go program is shallowly embedded: JSON dynamic values
(`interface\x7b\x7d` produced by `encoding/json`) become the inductive
`GoValue`; `map[string]interface\x7b\x7d` becomes an association list with
Go map semantics (indexing a missing key yields the nil interface,
assignment overwrites); runtime panics caused by failed type assertions
are modelled explicitly as a `panicked` result, distinct from returned
`error` values; the observable side effects of one handler invocation
(lines printed through the injected output sink, status records written
by `writeStatus`, output artifacts written by `writeAsOutput`, HTTP
requests handed to the injected client) are threaded through a `World`
record.  The single HTTP exchange of an invocation is modelled by an
`HttpBehavior` describing what the injected client returns.
-/

namespace ManualApproval

/-- A Go `float64` value, identified by its shortest round-trip decimal
representation, i.e. the exact text produced by
`strconv.FormatFloat(v, 'g', -1, 64)`.  This identification is faithful
because that formatting is injective on `float64` (it is the shortest
decimal that parses back to the same value).  JSON number literals are
assumed to be written in this canonical form. -/
structure GoFloat where
  shortestRepr : String
deriving DecidableEq, Repr

/-- A dynamically typed Go value as produced by `encoding/json`
unmarshalling into `interface\x7b\x7d`: JSON null, booleans, numbers
(always `float64`), strings, arrays and objects.  The extra `int`
constructor represents a Go `int` value, which never results from JSON
decoding but has an explicit case in `interfaceToString`. -/
inductive GoValue where
  | null : GoValue
  | bool (b : Bool) : GoValue
  | num (f : GoFloat) : GoValue
  | str (s : String) : GoValue
  | int (n : Int) : GoValue
  | arr (xs : List GoValue) : GoValue
  | obj (fields : List (String × GoValue)) : GoValue

/-- Go map read `m[k]`: the nil interface (`GoValue.null`) when the key is
absent, mirroring `map[string]interface\x7b\x7d` indexing. -/
def goIndex (m : List (String × GoValue)) (k : String) : GoValue :=
  match m with
  | [] => .null
  | (k', v) :: rest => if k' = k then v else goIndex rest k

/-- Key lookup that distinguishes an absent key (`none`) from a key bound
to JSON null; used to state properties about which fields a request body
contains. -/
def mapGet (m : List (String × GoValue)) (k : String) : Option GoValue :=
  match m with
  | [] => none
  | (k', v) :: rest => if k' = k then some v else mapGet rest k

/-- Go map assignment `m[k] = v`: overwrite the existing binding in place,
or append a new one. -/
def mapInsert (m : List (String × GoValue)) (k : String) (v : GoValue) :
    List (String × GoValue) :=
  match m with
  | [] => [(k, v)]
  | (k', v') :: rest =>
    if k' = k then (k', v) :: rest else (k', v') :: mapInsert rest k v

/-- The Go runtime description of a dynamic value's type, as printed in a
type-assertion panic message. -/
def goTypeDesc : GoValue → String
  | .null => "nil"
  | .bool _ => "bool"
  | .num _ => "float64"
  | .str _ => "string"
  | .int _ => "int"
  | .arr _ => "[]interface \x7b\x7d"
  | .obj _ => "map[string]interface \x7b\x7d"

/-- Result of a computation that either produces a value or panics
(a failed type assertion or a library panic); Go panics abort the whole
invocation and are distinct from returned `error` values. -/
inductive PanicOr (α : Type) where
  | ok (a : α) : PanicOr α
  | panicked (msg : String) : PanicOr α
deriving DecidableEq, Repr

/-- The non-comma-ok type assertion `v.(string)`: yields the string or
panics with an interface-conversion message. -/
def asString : GoValue → PanicOr String
  | .str s => .ok s
  | v =>
    .panicked ("interface conversion: interface \x7b\x7d is " ++
      goTypeDesc v ++ ", not string")

/-- `interfaceToString` from `execute.go`: the string coercion applied to
input parameter values before the callback POST.  Cases in source order:
`string` is returned unchanged; a Go `int` is passed to
`strconv.FormatInt(int64(v), 64)`, which panics because 64 is an illegal
base (this branch is unreachable from JSON-decoded data); a `float64` is
formatted with `strconv.FormatFloat(v, 'g', -1, 64)` (the value's
`shortestRepr` by the `GoFloat` identification); a `bool` becomes
`"true"`/`"false"` via `strconv.FormatBool`; every other dynamic type
yields the literal placeholder `"unsupported type"`. -/
def interfaceToString : GoValue → PanicOr String
  | .str s => .ok s
  | .int _ => .panicked "strconv: illegal AppendInt/FormatInt base"
  | .num f => .ok f.shortestRepr
  | .bool b => .ok (if b then "true" else "false")
  | _ => .ok "unsupported type"

/-- `strconv.ParseBool`: accepts exactly the twelve Go literals, anything
else is an invalid-syntax error whose text embeds the quoted input. -/
def parseGoBool (s : String) : Except String Bool :=
  if s = "1" ∨ s = "t" ∨ s = "T" ∨ s = "TRUE" ∨ s = "true" ∨ s = "True" then
    .ok true
  else if s = "0" ∨ s = "f" ∨ s = "F" ∨ s = "FALSE" ∨ s = "false" ∨ s = "False" then
    .ok false
  else
    .error ("strconv.ParseBool: parsing \"" ++ s ++ "\": invalid syntax")

/-- Worker for `goSplit`: scan the input, emitting a piece at each
occurrence of the (non-empty) separator; `fuel` bounds the scan (the
input length always suffices because every step consumes a character). -/
def goSplitAux (sep : List Char) : Nat → List Char → List Char → List String
  | _, [], acc => [String.mk acc.reverse]
  | 0, cs, acc => [String.mk (acc.reverse ++ cs)]
  | Nat.succ fuel, c :: rest, acc =>
    if sep.isPrefixOf (c :: rest) then
      String.mk acc.reverse ::
        goSplitAux sep fuel (List.drop (sep.length - 1) rest) []
    else goSplitAux sep fuel rest (c :: acc)

/-- `strings.Split` for a non-empty separator: all pieces between
occurrences of the separator, in order, keeping empty pieces. -/
def goSplit (s sep : String) : List String :=
  goSplitAux sep.data s.data.length s.data []

/-! ### JSON decoding and encoding

`encoding/json` is Go standard library, not repository code; the model
below reproduces the behaviour the handlers rely on: `Unmarshal` into
`interface\x7b\x7d` produces `GoValue`s (objects deduplicate repeated
keys, last wins), `Marshal` renders maps with keys in sorted byte order
and escapes `<`, `>`, `&` and control characters.  Number literals are
kept as written (assumed canonical, see `GoFloat`); number syntax is
checked only loosely. -/

/-- JSON whitespace skipping. -/
def skipWs : List Char → List Char
  | c :: cs =>
    if c = ' ' ∨ c = '\n' ∨ c = '\t' ∨ c = '\x0d' then skipWs cs else c :: cs
  | [] => []

/-- Decode one string-literal escape character (`\uXXXX` is not modelled;
payloads in this development do not use it). -/
def escChar (c : Char) : Option Char :=
  if c = '"' then some '"'
  else if c = '\\' then some '\\'
  else if c = '/' then some '/'
  else if c = 'n' then some '\n'
  else if c = 't' then some '\t'
  else if c = 'r' then some '\x0d'
  else if c = 'b' then some '\x08'
  else if c = 'f' then some '\x0c'
  else none

/-- Parse the body of a JSON string literal (after the opening quote),
returning the decoded text and the remaining input. -/
def parseStrAux : List Char → Option (String × List Char)
  | [] => none
  | '"' :: rest => some ("", rest)
  | '\\' :: e :: rest =>
    match escChar e with
    | some c =>
      match parseStrAux rest with
      | some (s, r) => some (String.mk (c :: s.data), r)
      | none => none
    | none => none
  | c :: rest =>
    match parseStrAux rest with
    | some (s, r) => some (String.mk (c :: s.data), r)
    | none => none

/-- Characters that may occur in a JSON number literal. -/
def isNumChar (c : Char) : Bool :=
  c.isDigit ∨ c = '-' ∨ c = '+' ∨ c = '.' ∨ c = 'e' ∨ c = 'E'

mutual

/-- Parse one JSON value; `fuel` bounds recursion depth (any fuel larger
than the input length is enough). -/
def parseValue : Nat → List Char → Option (GoValue × List Char)
  | 0, _ => none
  | Nat.succ fuel, cs =>
    match skipWs cs with
    | 'n' :: 'u' :: 'l' :: 'l' :: rest => some (.null, rest)
    | 't' :: 'r' :: 'u' :: 'e' :: rest => some (.bool true, rest)
    | 'f' :: 'a' :: 'l' :: 's' :: 'e' :: rest => some (.bool false, rest)
    | '"' :: rest =>
      match parseStrAux rest with
      | some (s, r) => some (.str s, r)
      | none => none
    | '[' :: rest => parseArrayItems fuel rest
    | '\x7b' :: rest => parseObjItems fuel rest []
    | c :: rest =>
      if isNumChar c then
        some (.num ⟨String.mk (c :: rest.takeWhile isNumChar)⟩,
          rest.dropWhile isNumChar)
      else none
    | [] => none

/-- Parse the items of a JSON array after the opening bracket. -/
def parseArrayItems : Nat → List Char → Option (GoValue × List Char)
  | 0, _ => none
  | Nat.succ fuel, cs =>
    match skipWs cs with
    | ']' :: rest => some (.arr [], rest)
    | cs' =>
      match parseValue fuel cs' with
      | some (v, r) =>
        match skipWs r with
        | ',' :: r2 =>
          match parseArrayItems fuel r2 with
          | some (.arr vs, r3) => some (.arr (v :: vs), r3)
          | _ => none
        | ']' :: r2 => some (.arr [v], r2)
        | _ => none
      | none => none

/-- Parse the members of a JSON object after the opening brace,
accumulating bindings with Go map assignment (repeated keys: last one
wins, as in `encoding/json`). -/
def parseObjItems : Nat → List Char → List (String × GoValue) →
    Option (GoValue × List Char)
  | 0, _, _ => none
  | Nat.succ fuel, cs, acc =>
    match skipWs cs with
    | '\x7d' :: rest => some (.obj acc, rest)
    | '"' :: rest =>
      match parseStrAux rest with
      | some (key, r) =>
        match skipWs r with
        | ':' :: r2 =>
          match parseValue fuel r2 with
          | some (v, r3) =>
            match skipWs r3 with
            | ',' :: r4 => parseObjItems fuel r4 (mapInsert acc key v)
            | '\x7d' :: r4 => some (.obj (mapInsert acc key v), r4)
            | _ => none
          | none => none
        | _ => none
      | none => none
    | _ => none

end

/-- `json.Unmarshal` into `interface\x7b\x7d`: `none` models a decode
error (invalid JSON or trailing garbage). -/
def jsonParse (s : String) : Option GoValue :=
  match parseValue (s.length + 1) s.data with
  | some (v, rest) => if skipWs rest = [] then some v else none
  | none => none

/-- Hexadecimal digit for `\u00XX` escapes. -/
def hexDigit (n : Nat) : Char :=
  if n = 0 then '0' else if n = 1 then '1' else if n = 2 then '2'
  else if n = 3 then '3' else if n = 4 then '4' else if n = 5 then '5'
  else if n = 6 then '6' else if n = 7 then '7' else if n = 8 then '8'
  else if n = 9 then '9' else if n = 10 then 'a' else if n = 11 then 'b'
  else if n = 12 then 'c' else if n = 13 then 'd' else if n = 14 then 'e'
  else 'f'

/-- `json.Marshal` escaping of one character inside a string literal
(with Go's default HTML escaping of `<`, `>`, `&`). -/
def escapeJsonChar (c : Char) : String :=
  if c = '"' then "\\\""
  else if c = '\\' then "\\\\"
  else if c = '\n' then "\\n"
  else if c = '\x0d' then "\\r"
  else if c = '\t' then "\\t"
  else if c = '<' then "\\u003c"
  else if c = '>' then "\\u003e"
  else if c = '&' then "\\u0026"
  else if c.toNat < 32 then
    "\\u00" ++ String.mk [hexDigit (c.toNat / 16), hexDigit (c.toNat % 16)]
  else String.mk [c]

/-- Render a JSON string literal. -/
def encodeJsonString (s : String) : String :=
  "\"" ++ String.join (s.data.map escapeJsonChar) ++ "\""

/-- Insert a binding into a key-sorted field list (UTF-8 byte order on
keys coincides with the code-point order used by `String` comparison). -/
def insertField (p : String × GoValue) :
    List (String × GoValue) → List (String × GoValue)
  | [] => [p]
  | q :: rest => if p.1 < q.1 then p :: q :: rest else q :: insertField p rest

/-- Sort object fields by key, as `json.Marshal` does for Go maps. -/
def sortFields : List (String × GoValue) → List (String × GoValue)
  | [] => []
  | p :: rest => insertField p (sortFields rest)

/-- `json.Marshal` of a dynamic value, with recursion depth bounded by
`fuel` (callers supply `sizeOf`, which always suffices). -/
def jsonEncodeF : Nat → GoValue → String
  | 0, _ => ""
  | Nat.succ fuel, v =>
    match v with
    | .null => "null"
    | .bool b => if b then "true" else "false"
    | .num f => f.shortestRepr
    | .str s => encodeJsonString s
    | .int n => toString n
    | .arr xs =>
      "[" ++ String.intercalate "," (xs.map (jsonEncodeF fuel)) ++ "]"
    | .obj fs =>
      "\x7b" ++ String.intercalate ","
        ((sortFields fs).map
          (fun p => encodeJsonString p.1 ++ ":" ++ jsonEncodeF fuel p.2)) ++
      "\x7d"

mutual

/-- Structural size of a dynamic value, used as encoder fuel. -/
def goValueSize : GoValue → Nat
  | .arr xs => goValueListSize xs + 1
  | .obj fs => goValueFieldsSize fs + 1
  | _ => 1

/-- Structural size of a list of dynamic values. -/
def goValueListSize : List GoValue → Nat
  | [] => 0
  | v :: rest => goValueSize v + goValueListSize rest + 1

/-- Structural size of an object's field list. -/
def goValueFieldsSize : List (String × GoValue) → Nat
  | [] => 0
  | p :: rest => goValueSize p.2 + goValueFieldsSize rest + 1

end

/-- `json.Marshal` of a dynamic value.  On values decoded from JSON this
never fails (the error paths of `Marshal` concern values such as channels
or NaN floats that cannot occur here), so it is modelled as total. -/
def jsonEncode (v : GoValue) : String := jsonEncodeF (goValueSize v) v

/-! ### Effects of one handler invocation -/

/-- The environment (`os.Getenv`): the empty string doubles as "unset",
exactly as the Go code treats it. -/
def Env : Type := String → String

/-- Override one environment variable. -/
def updateEnv (env : Env) (key val : String) : Env :=
  fun k => if k = key then val else env k

/-- Observable side effects accumulated during one invocation: lines
printed through the injected `Output` sink (debug logging bypasses the
sink and is not captured), `(status, message)` records written by
`writeStatus`, `(name, content)` artifacts written by `writeAsOutput`,
and `(path, body)` of each HTTP request actually handed to the client. -/
structure World where
  prints : List String
  statusWrites : List (String × String)
  outputs : List (String × String)
  posted : List (String × List (String × GoValue))

/-- The empty effect record, the state at handler entry. -/
def World.empty : World := ⟨[], [], [], []⟩

/-- Append one printed line. -/
def printOut (w : World) (s : String) : World :=
  { w with prints := w.prints ++ [s] }

/-- What the injected HTTP client returns for the invocation's single
request: a transport-level error, or a response with status code, status
line and body text. -/
inductive HttpBehavior where
  | transportErr (msg : String) : HttpBehavior
  | resp (code : Nat) (status : String) (bodyText : String) : HttpBehavior

/-- Outcome of a handler: normal return, a returned `error`, or a panic. -/
inductive RunResult where
  | ok : RunResult
  | err (e : String) : RunResult
  | panicked (msg : String) : RunResult
deriving DecidableEq, Repr

/-- The transport error produced by `Config.post` for a non-200 response:
`failed to send event: \nPOST url\nHTTP/code status\n`. -/
def transportError (requestURL : String) (code : Nat) (status : String) :
    String :=
  "failed to send event: \nPOST " ++ requestURL ++ "\nHTTP/" ++
    toString code ++ " " ++ status ++ "\n"

/-- `url.JoinPath` restricted to the shapes this program produces: the
base URL joined with an absolute path. -/
def joinPath (base path : String) : String :=
  if base.endsWith "/" then base.dropRight 1 ++ path else base ++ path

/-- `writeStatus`: requires `CLOUDBEES_STATUS`, then persists the
`\x7b"message","status"\x7d` JSON record (the file holds
`jsonEncode (GoValue.obj [("message", msg), ("status", st)])`; the model
records the pair).  Disk-level write failures are outside the model. -/
def writeStatus (env : Env) (w : World) (status message : String) :
    World × Option String :=
  if env "CLOUDBEES_STATUS" = "" then
    (w, some "CLOUDBEES_STATUS environment variable missing")
  else
    ({ w with statusWrites := w.statusWrites ++ [(status, message)] }, none)

/-- `writeAsOutput`: requires `CLOUDBEES_OUTPUTS`, then writes the named
artifact.  Disk-level write failures are outside the model. -/
def writeAsOutput (env : Env) (w : World) (name value : String) :
    World × Option String :=
  if env "CLOUDBEES_OUTPUTS" = "" then
    (w, some "CLOUDBEES_OUTPUTS environment variable missing")
  else
    ({ w with outputs := w.outputs ++ [(name, value)] }, none)

/-- `Config.post`: resolve `URL`/`API_TOKEN` (fail fast when absent),
join the request URL, send the JSON body, and return the response body
text together with `none` on status 200 or the transport error
otherwise.  The request is recorded in `World.posted` exactly when it is
handed to the client. -/
def post (env : Env) (client : HttpBehavior) (w : World) (apiPath : String)
    (requestBody : List (String × GoValue)) : World × String × Option String :=
  if env "URL" = "" then (w, "", some "URL environment variable missing")
  else if env "API_TOKEN" = "" then
    (w, "", some "API_TOKEN environment variable missing")
  else
    let requestURL := joinPath (env "URL") apiPath
    let w1 := { w with posted := w.posted ++ [(apiPath, requestBody)] }
    match client with
    | .transportErr m => (w1, "", some m)
    | .resp code status bodyText =>
      if code = 200 then (w1, bodyText, none)
      else (w1, bodyText, some (transportError requestURL code status))

/-! ### The three handlers -/

/-- The loop body of `formatInputsForPost`: for each input entry (which
must be an object, asserted), record the original `value` under `name`
(asserted string) in the outputs map, then replace `value` in the entry
with its string coercion.  The map assignment happens before the
coercion, as in the source. -/
def processInputs (ins : List GoValue) (acc : List (String × GoValue)) :
    PanicOr (List GoValue × List (String × GoValue)) :=
  match ins with
  | [] => .ok ([], acc)
  | input :: rest =>
    match input with
    | .obj ip =>
      match goIndex ip "name" with
      | .str nm =>
        let v := goIndex ip "value"
        let acc1 := mapInsert acc nm v
        match interfaceToString v with
        | .ok s =>
          match processInputs rest acc1 with
          | .ok (rest1, outMap) =>
            .ok (.obj (mapInsert ip "value" (.str s)) :: rest1, outMap)
          | .panicked m => .panicked m
        | .panicked m => .panicked m
      | other =>
        .panicked ("interface conversion: interface \x7b\x7d is " ++
          goTypeDesc other ++ ", not string")
    | other =>
      .panicked ("interface conversion: interface \x7b\x7d is " ++
        goTypeDesc other ++ ", not map[string]interface \x7b\x7d")

/-- `formatInputsForPost`: when the payload's `inputs` field is non-nil
(asserted to be an array, panicking otherwise) and non-empty, coerce each
entry's value to a string for the POST while capturing the original
typed values in an outputs map; otherwise leave the payload untouched
with a nil slice and an empty (but allocated) outputs map.  The debug
re-`Marshal` of the mutated payload is total on these values, so its
error branch is unreachable. -/
def formatInputsForPost (parsedPayload : List (String × GoValue)) :
    PanicOr (List GoValue × List (String × GoValue) × List (String × GoValue)) :=
  match goIndex parsedPayload "inputs" with
  | .null => .ok ([], [], parsedPayload)
  | .arr ins =>
    if 0 < ins.length then
      match processInputs ins [] with
      | .ok (modified, outMap) =>
        .ok (modified, outMap, mapInsert parsedPayload "inputs" (.arr modified))
      | .panicked m => .panicked m
    else .ok ([], [], parsedPayload)
  | other =>
    .panicked ("interface conversion: interface \x7b\x7d is " ++
      goTypeDesc other ++ ", not []interface \x7b\x7d")

/-- `writeToOutputs`: when the outputs map is non-nil (`some`), marshal it
and write the `approvalInputValues` artifact; then always write the
`comments` artifact as raw bytes. -/
def writeToOutputs (env : Env) (w : World)
    (outputsMap : Option (List (String × GoValue))) (comments : String) :
    World × Option String :=
  match outputsMap with
  | some m =>
    match writeAsOutput env w "approvalInputValues" (jsonEncode (.obj m)) with
    | (w1, some e) => (w1, some e)
    | (w1, none) =>
      match writeAsOutput env w1 "comments" comments with
      | (w2, r) => (w2, r)
  | none =>
    match writeAsOutput env w "comments" comments with
    | (w1, r) => (w1, r)

/-- `fmt` `%s` rendering of a dynamic value as used for the input name in
the parameter log line (the name was already asserted to be a string when
this is reached; other cases approximate Go's rendering). -/
def goFmtS : GoValue → String
  | .str s => s
  | .bool b => if b then "true" else "false"
  | .num f => f.shortestRepr
  | .int n => toString n
  | .null => "<nil>"
  | v => jsonEncode v

/-- One `strings.Replace(v, "\n", "<br/>", -1)` as in the log loop:
every newline character becomes the literal `<br/>`. -/
def replaceNewlines (s : String) : String :=
  String.mk (s.data.foldr
    (fun c acc =>
      if c = '\n' then '<' :: 'b' :: 'r' :: '/' :: '>' :: acc else c :: acc)
    [])

/-- The loop of `formatInputsValsAndWriteToLog`: print one line per input
entry; the entry is asserted to be an object and its (already coerced)
`value` a string, appending `" (default)"` when `is_default == true`. -/
def logInputs (w : World) : List GoValue → World × Option String
  | [] => (w, none)
  | input :: rest =>
    match input with
    | .obj ip =>
      match goIndex ip "value" with
      | .str v =>
        let v1 := replaceNewlines v
        let v2 :=
          match goIndex ip "is_default" with
          | .bool true => v1 ++ " (default)"
          | _ => v1
        logInputs
          (printOut w (" " ++ goFmtS (goIndex ip "name") ++ ": " ++ v2 ++ " \n"))
          rest
      | other =>
        (w, some ("interface conversion: interface \x7b\x7d is " ++
          goTypeDesc other ++ ", not string"))
    | other =>
      (w, some ("interface conversion: interface \x7b\x7d is " ++
        goTypeDesc other ++ ", not map[string]interface \x7b\x7d"))

/-- `formatInputsValsAndWriteToLog`: when the (coerced) input list is
non-empty, print the two header lines followed by one line per entry.
The `Option String` carries a panic message from a failed assertion in
the loop. -/
def formatInputsValsAndWriteToLog (w : World) (modified : List GoValue) :
    World × Option String :=
  if 0 < modified.length then
    logInputs (printOut (printOut w "\nInput Parameters:\n") "------------------\n")
      modified
  else (w, none)

/-- `processApprovalStatus`: map the callback status to a job outcome,
printing the decision line; any unexpected status prints an error line,
writes a `FAILED` status record (a failure of that write takes
precedence) and yields an error. -/
def processApprovalStatus (env : Env) (w : World)
    (approvalStatus approverUserName respondedOn comments : String) :
    World × Except String String :=
  if approvalStatus = "UPDATE_MANUAL_APPROVAL_STATUS_APPROVED" then
    (printOut w ("Approved by " ++ approverUserName ++ " on " ++ respondedOn ++
      " with comments:\n" ++ comments ++ "\n"), .ok "APPROVED")
  else if approvalStatus = "UPDATE_MANUAL_APPROVAL_STATUS_REJECTED" then
    (printOut w ("Rejected by " ++ approverUserName ++ " on " ++ respondedOn ++
      " with comments:\n" ++ comments ++ "\n"), .ok "REJECTED")
  else
    let w1 := printOut w ("ERROR: Unexpected approval status '" ++
      approvalStatus ++ "'\n")
    match writeStatus env w1 "FAILED"
        ("Unexpected approval status '" ++ approvalStatus ++ "'") with
    | (w2, some ferr) => (w2, .error ferr)
    | (w2, none) =>
      (w2, .error ("Unexpected approval status '" ++ approvalStatus ++ "'"))

/-- The tail of `Config.callback` after a successful status mapping: log
the input parameters (a failed assertion there is a panic), write the
output artifacts, then write the final status record (whose write errors
take precedence over the success). -/
def callbackFinish (env : Env) (w2 : World) (jobStatus : String)
    (modified : List GoValue) (outputsMap : List (String × GoValue))
    (comments : String) : World × RunResult :=
  match formatInputsValsAndWriteToLog w2 modified with
  | (w3, some m) => (w3, .panicked m)
  | (w3, none) =>
    match writeToOutputs env w3 (some outputsMap) comments with
    | (w4, some e3) => (w4, .err e3)
    | (w4, none) =>
      match writeStatus env w4 jobStatus
          "Successfully changed workflow manual approval status" with
      | (w5, some ferr) => (w5, .err ferr)
      | (w5, none) => (w5, .ok)

/-- The tail of `Config.callback` from the POST on: send the mutated
payload, handle the non-200 path (print, record `FAILED`, propagate, with
a failing status write taking precedence), then map the status and finish
with the logging and the writes. -/
def callbackSend (env : Env) (client : HttpBehavior) (w : World)
    (approvalStatus comments respondedOn approverUserName : String)
    (modified : List GoValue) (outputsMap : List (String × GoValue))
    (mutatedPayload : List (String × GoValue)) : World × RunResult :=
  match post env client w "/v1/workflows/approval/status" mutatedPayload with
  | (w1, resp, some e) =>
    let w2 := printOut (printOut w1
      ("ERROR: API call failed with error: '" ++ e ++ "'\n"))
      ("ERROR: API response: '" ++ resp ++ "'\n")
    match writeStatus env w2 "FAILED"
        ("Failed to change workflow manual approval status: '" ++ e ++ "'") with
    | (w3, some ferr) => (w3, .err ferr)
    | (w3, none) => (w3, .err e)
  | (w1, _, none) =>
    match processApprovalStatus env w1 approvalStatus approverUserName
        respondedOn comments with
    | (w2, .error e2) => (w2, .err e2)
    | (w2, .ok jobStatus) =>
      callbackFinish env w2 jobStatus modified outputsMap comments

/-- `Config.callback`: read and unmarshal `PAYLOAD`, assert the four
string fields (a failed assertion is a panic, not an error), split the
inputs for the POST, then proceed with `callbackSend`. -/
def callback (env : Env) (client : HttpBehavior) (w : World) :
    World × RunResult :=
  if env "PAYLOAD" = "" then
    (w, .err "PAYLOAD environment variable missing")
  else
    match jsonParse (env "PAYLOAD") with
    | none => (w, .err "invalid JSON in PAYLOAD")
    | some p =>
      match p with
      | .obj fs =>
        match asString (goIndex fs "status") with
        | .panicked m => (w, .panicked m)
        | .ok approvalStatus =>
          match asString (goIndex fs "comments") with
          | .panicked m => (w, .panicked m)
          | .ok comments =>
            match asString (goIndex fs "respondedOn") with
            | .panicked m => (w, .panicked m)
            | .ok respondedOn =>
              match asString (goIndex fs "userName") with
              | .panicked m => (w, .panicked m)
              | .ok approverUserName =>
                match formatInputsForPost fs with
                | .panicked m => (w, .panicked m)
                | .ok (modified, outputsMap, mutated) =>
                  callbackSend env client w approvalStatus comments
                    respondedOn approverUserName modified outputsMap mutated
      | _ =>
        (w, .err "json: cannot unmarshal value into map[string]interface \x7b\x7d")

/-- Extract the approver user names from a decoded `approvers` array, as
`json.Unmarshal` into `CreateManualApprovalResponse` does: each element
must be an object (a mismatch is a decode error); a missing `userName`
leaves the zero value `""`. -/
def decodeApprovers : List GoValue → Except String (List String)
  | [] => .ok []
  | .obj g :: rest =>
    match decodeApprovers rest with
    | .ok users =>
      match goIndex g "userName" with
      | .str u => .ok (u :: users)
      | .null => .ok ("" :: users)
      | _ => .error "json: cannot unmarshal value into field userName"
    | .error e => .error e
  | _ :: _ => .error "json: cannot unmarshal value into Approvers"

/-- Decode the `init` response body into the approver user-name list
(`CreateManualApprovalResponse`); a missing `approvers` field leaves a
nil slice. -/
def parseApprovalResponse (resp : String) : Except String (List String) :=
  match jsonParse resp with
  | none => .error "invalid JSON in approval response"
  | some (.obj fs) =>
    match goIndex fs "approvers" with
    | .arr xs => decodeApprovers xs
    | .null => .ok []
    | _ => .error "json: cannot unmarshal value into field approvers"
  | some _ =>
    .error "json: cannot unmarshal value into CreateManualApprovalResponse"

/-- The request body assembled by `Config.init` (source lines 111-127):
the two boolean fields are always present; `approvers` (the comma-split
of `APPROVERS`), `instructions` and `approvalInputs` (the raw `INPUTS`
text) are added only when the corresponding variable is non-empty. -/
def initRequestBody (env : Env) (disallowLaunchedByUser notify : Bool) :
    List (String × GoValue) :=
  [("disallowLaunchedByUser", GoValue.bool disallowLaunchedByUser),
   ("notifyEligibleUsers", GoValue.bool notify)] ++
  (if env "APPROVERS" ≠ "" then
    [("approvers",
      GoValue.arr ((goSplit (env "APPROVERS") ",").map GoValue.str))]
   else []) ++
  (if env "INSTRUCTIONS" ≠ "" then
    [("instructions", GoValue.str (env "INSTRUCTIONS"))]
   else []) ++
  (if env "INPUTS" ≠ "" then
    [("approvalInputs", GoValue.str (env "INPUTS"))]
   else [])

/-- `Config.init`: parse the two boolean flags (default `"false"` when the
variable is empty; a malformed text aborts with the bare parse error),
assemble the request body with the optional fields present only when
their source is non-empty, POST, and on failure print the error and
response, record `FAILED` (a failing write takes precedence) and
propagate; on success print the approver names, optionally print the
markdown-rendered instructions, and record `PENDING_APPROVAL`.  The
goldmark renderer is third-party code and is passed in as `md`. -/
def init (md : String → String) (env : Env) (client : HttpBehavior)
    (w : World) : World × RunResult :=
  let instructions := env "INSTRUCTIONS"
  let disallowStr :=
    if env "DISALLOW_LAUNCHED_BY_USER" = "" then "false"
    else env "DISALLOW_LAUNCHED_BY_USER"
  match parseGoBool disallowStr with
  | .error e => (w, .err e)
  | .ok disallowLaunchedByUser =>
    let notifyStr :=
      if env "NOTIFY_ALL_ELIGIBLE_USERS" = "" then "false"
      else env "NOTIFY_ALL_ELIGIBLE_USERS"
    match parseGoBool notifyStr with
    | .error e => (w, .err e)
    | .ok notify =>
      let body := initRequestBody env disallowLaunchedByUser notify
      match post env client w "/v1/workflows/approval" body with
      | (w1, resp, some e) =>
        let w2 := printOut (printOut w1
          ("ERROR: API call failed with error: '" ++ e ++ "'\n"))
          ("ERROR: API response: '" ++ resp ++ "'\n")
        match writeStatus env w2 "FAILED"
            ("Failed to initialize workflow manual approval request: '" ++
              e ++ "'") with
        | (w3, some ferr) => (w3, .err ferr)
        | (w3, none) => (w3, .err e)
      | (w1, resp, none) =>
        match parseApprovalResponse resp with
        | .error e => (w1, .err e)
        | .ok users =>
          let w2 := printOut w1 ("Waiting for approval from one of the following: " ++
            String.intercalate "," users ++ "\n")
          let w3 :=
            if instructions ≠ "" then
              printOut w2 ("Instructions:\n" ++ md instructions ++ "\n")
            else w2
          match writeStatus env w3 "PENDING_APPROVAL"
              "Waiting for approval from approvers" with
          | (w4, some ferr) => (w4, .err ferr)
          | (w4, none) => (w4, .ok)

/-- `Config.cancel`: require `CANCELLATION_REASON`; print the two fixed
lines and choose the status according to whether the reason is exactly
`"CANCELLED"`, POST, and on failure print the error and response and
propagate.  No status record is ever written. -/
def cancel (env : Env) (client : HttpBehavior) (w : World) :
    World × RunResult :=
  let cancellationReason := env "CANCELLATION_REASON"
  if cancellationReason = "" then
    (w, .err "CANCELLATION_REASON environment variable missing")
  else
    let w1 :=
      if cancellationReason = "CANCELLED" then
        printOut (printOut w "Workflow aborted by user\n")
          "Cancelling the manual approval request\n"
      else
        printOut (printOut w "Workflow timed out\n")
          "Workflow approval response was not received within allotted time.\n"
    let body :=
      if cancellationReason = "CANCELLED" then
        [("status", GoValue.str "UPDATE_MANUAL_APPROVAL_STATUS_ABORTED")]
      else
        [("status", GoValue.str "UPDATE_MANUAL_APPROVAL_STATUS_TIMED_OUT")]
    match post env client w1 "/v1/workflows/approval/status" body with
    | (w2, resp, some e) =>
      (printOut (printOut w2
        ("ERROR: API call failed with error: '" ++ e ++ "'\n"))
        ("ERROR: API response: '" ++ resp ++ "'\n"), .err e)
    | (w2, _, none) => (w2, .ok)

/-- `Config.Run`: dispatch on the handler flag. -/
def runHandler (md : String → String) (env : Env) (client : HttpBehavior)
    (handler : String) (w : World) : World × RunResult :=
  match handler with
  | "init" => init md env client w
  | "callback" => callback env client w
  | "cancel" => cancel env client w
  | _ => (w, .err ("unsupported handler type: " ++ handler))

/-! ### Auxiliary notions used to state the claims -/

/-- Build a concrete environment from bindings (unset variables read ""). -/
def envOf : List (String × String) → Env
  | [] => fun _ => ""
  | (k, v) :: rest => fun q => if q = k then v else envOf rest q

/-- The `name` of an input entry, when the entry is an object whose
`name` field is a string (the only shape `formatInputsForPost` accepts). -/
def entryName : GoValue → String
  | .obj ip =>
    match goIndex ip "name" with
    | .str s => s
    | _ => ""
  | _ => ""

/-- The `value` of an input entry. -/
def entryValue : GoValue → GoValue
  | .obj ip => goIndex ip "value"
  | _ => .null

/-- The value of the last input entry carrying the given name (Go map
writes make the last entry win). -/
def lastEntryValue : List GoValue → String → Option GoValue
  | [], _ => none
  | e :: rest, nm =>
    match lastEntryValue rest nm with
    | some v => some v
    | none => if entryName e = nm then some (entryValue e) else none

/-- Whether a dynamic value has one of the three supported input types
(string, float64 number, boolean). -/
def isSupportedInput : GoValue → Bool
  | .str _ => true
  | .num _ => true
  | .bool _ => true
  | _ => false

/-! ### Concrete data used by witnesses and counterexamples -/

/-- A callback payload whose three inputs carry a boolean, a string and a
number (mirrors the repository's `Test_callback` "success APPROVED"). -/
def payloadApproved : String :=
  "\x7b\"status\":\"UPDATE_MANUAL_APPROVAL_STATUS_APPROVED\"," ++
  "\"comments\":\"test comments1\",\"userId\":\"123\"," ++
  "\"userName\":\"testUserName\",\"respondedOn\":\"2009-11-10T23:00:00Z\"," ++
  "\"inputs\":[\x7b\"name\":\"reqBoolInput\",\"value\":true,\"is_default\":true\x7d," ++
  "\x7b\"name\":\"reqStrInput\",\"value\":\"line1\\nline2\",\"is_default\":true\x7d," ++
  "\x7b\"name\":\"reqNumInput\",\"value\":99.33,\"is_default\":false\x7d]\x7d"

/-- The same payload with an empty `inputs` array (mirrors the
"success APPROVED - empty input values" test). -/
def payloadApprovedEmptyInputs : String :=
  "\x7b\"status\":\"UPDATE_MANUAL_APPROVAL_STATUS_APPROVED\"," ++
  "\"comments\":\"test comments1\",\"userId\":\"123\"," ++
  "\"userName\":\"testUserName\",\"respondedOn\":\"2009-11-10T23:00:00Z\"," ++
  "\"inputs\":[]\x7d"

/-- A full environment for callback witnesses. -/
def envCallback : Env :=
  envOf [("URL", "http://test.com"), ("API_TOKEN", "test"),
    ("CLOUDBEES_STATUS", "/tmp/test-status-out"),
    ("CLOUDBEES_OUTPUTS", "/tmp/test-outputs"),
    ("PAYLOAD", payloadApproved)]

/-- The callback environment with the empty-inputs payload. -/
def envCallbackEmptyInputs : Env :=
  updateEnv envCallback "PAYLOAD" payloadApprovedEmptyInputs

/-- The callback environment with the empty-inputs payload but no
`CLOUDBEES_OUTPUTS` directory configured. -/
def envCallbackNoOutputs : Env :=
  envOf [("URL", "http://test.com"), ("API_TOKEN", "test"),
    ("CLOUDBEES_STATUS", "/tmp/test-status-out"),
    ("PAYLOAD", payloadApprovedEmptyInputs)]

/-- The dynamic object `payloadApprovedEmptyInputs` decodes to. -/
def parsedEmptyFields : List (String × GoValue) :=
  [("status", GoValue.str "UPDATE_MANUAL_APPROVAL_STATUS_APPROVED"),
   ("comments", GoValue.str "test comments1"),
   ("userId", GoValue.str "123"),
   ("userName", GoValue.str "testUserName"),
   ("respondedOn", GoValue.str "2009-11-10T23:00:00Z"),
   ("inputs", GoValue.arr [])]

/-- A successful HTTP exchange returning an empty JSON object. -/
def client200 : HttpBehavior := .resp 200 "200 OK" "\x7b\x7d"

/-- A failing HTTP exchange (mirrors the repository's failure tests). -/
def client500 : HttpBehavior :=
  .resp 500 "500 Internal Server Error" "wrong parameter"

/-! ## Helper lemmas -/

theorem goIndex_mapInsert_self (m : List (String × GoValue)) (k : String)
    (v : GoValue) : goIndex (mapInsert m k v) k = v := by
  induction m with
  | nil => simp [mapInsert, goIndex]
  | cons p rest ih =>
    by_cases h : p.1 = k <;> simp [mapInsert, goIndex, h, ih]

theorem mapGet_mapInsert (m : List (String × GoValue)) (k k' : String)
    (v : GoValue) :
    mapGet (mapInsert m k v) k' = if k = k' then some v else mapGet m k' := by
  induction m with
  | nil =>
    by_cases h : k = k' <;> simp [mapInsert, mapGet, h]
  | cons p rest ih =>
    obtain ⟨pk, pv⟩ := p
    by_cases h : pk = k
    · subst h
      by_cases h' : pk = k' <;> simp [mapInsert, mapGet, h']
    · by_cases h' : pk = k'
      · subst h'
        have hkk : ¬k = pk := fun hh => h hh.symm
        simp [mapInsert, mapGet, h, hkk]
      · simp [mapInsert, mapGet, h, h', ih]

/-! ## Claim theorems -/

/-- C2 counterexample: the coercion function does not return a string for
every dynamic type — applied to the Go `int` value `5` it panics (the
source calls `strconv.FormatInt` with the illegal base 64) rather than
returning the placeholder `"unsupported type"`. -/
theorem interfaceToString_claim_counterexample :
    interfaceToString (GoValue.int 5) =
      PanicOr.panicked "strconv: illegal AppendInt/FormatInt base" ∧
    interfaceToString (GoValue.int 5) ≠ PanicOr.ok "unsupported type" := by
  exact ⟨rfl, by decide⟩

/-- C2 (amended): for every input value that is not a Go `int`, the
coercion returns (never fails): the string itself for a string, the
shortest round-trip decimal text for a float64, `"true"`/`"false"` for a
boolean, and the literal placeholder `"unsupported type"` for any other
dynamic type; a Go `int` instead panics in `strconv.FormatInt` (base 64),
though no `int` ever arises from a JSON-decoded payload. -/
theorem interfaceToString_coercion_spec (v : GoValue)
    (h : ∀ n : Int, v ≠ GoValue.int n) :
    interfaceToString v = PanicOr.ok
      (match v with
       | .str s => s
       | .num f => f.shortestRepr
       | .bool b => if b then "true" else "false"
       | _ => "unsupported type") := by
  cases v with
  | int n => exact absurd rfl (h n)
  | _ => rfl

/-- C2 witness: the amended statement evaluated at the three supported
types and at a JSON null. -/
theorem interfaceToString_coercion_spec_witness :
    interfaceToString (GoValue.str "hello") = PanicOr.ok "hello" ∧
    interfaceToString (GoValue.num ⟨"99.33"⟩) = PanicOr.ok "99.33" ∧
    interfaceToString (GoValue.bool true) = PanicOr.ok "true" ∧
    interfaceToString GoValue.null = PanicOr.ok "unsupported type" :=
  ⟨interfaceToString_coercion_spec (GoValue.str "hello") (fun _ h => nomatch h),
   interfaceToString_coercion_spec (GoValue.num ⟨"99.33"⟩) (fun _ h => nomatch h),
   interfaceToString_coercion_spec (GoValue.bool true) (fun _ h => nomatch h),
   interfaceToString_coercion_spec GoValue.null (fun _ h => nomatch h)⟩

/-- C9: for payloads that are valid JSON but miss one of the asserted
string fields, or carry it with a non-string value, or whose `inputs` is
not an array of objects with string names, the callback handler panics on
the failed type assertion instead of returning an error: shown for a
payload lacking `status`, one whose `status` is a boolean, one whose
`inputs` is a string, one whose `inputs` holds a number instead of an
object, and one whose input entry lacks a `name`. -/
theorem callback_panics_on_malformed_payload :
    (callback (envOf [("PAYLOAD", "\x7b\"comments\":\"c\"\x7d")]) client200
        World.empty).2 =
      RunResult.panicked
        "interface conversion: interface \x7b\x7d is nil, not string" ∧
    (callback (envOf [("PAYLOAD", "\x7b\"status\":true\x7d")]) client200
        World.empty).2 =
      RunResult.panicked
        "interface conversion: interface \x7b\x7d is bool, not string" ∧
    (callback (envOf [("PAYLOAD",
        "\x7b\"status\":\"s\",\"comments\":\"c\",\"respondedOn\":\"r\"," ++
        "\"userName\":\"u\",\"inputs\":\"oops\"\x7d")]) client200
        World.empty).2 =
      RunResult.panicked
        ("interface conversion: interface \x7b\x7d is string, " ++
          "not []interface \x7b\x7d") ∧
    (callback (envOf [("PAYLOAD",
        "\x7b\"status\":\"s\",\"comments\":\"c\",\"respondedOn\":\"r\"," ++
        "\"userName\":\"u\",\"inputs\":[5]\x7d")]) client200
        World.empty).2 =
      RunResult.panicked
        ("interface conversion: interface \x7b\x7d is float64, " ++
          "not map[string]interface \x7b\x7d") ∧
    (callback (envOf [("PAYLOAD",
        "\x7b\"status\":\"s\",\"comments\":\"c\",\"respondedOn\":\"r\"," ++
        "\"userName\":\"u\",\"inputs\":[\x7b\"value\":1\x7d]\x7d")]) client200
        World.empty).2 =
      RunResult.panicked
        "interface conversion: interface \x7b\x7d is nil, not string" := by
  refine ⟨rfl, rfl, rfl, rfl, rfl⟩

@[simp]
theorem printOut_prints (w : World) (s : String) :
    (printOut w s).prints = w.prints ++ [s] := rfl

@[simp]
theorem printOut_statusWrites (w : World) (s : String) :
    (printOut w s).statusWrites = w.statusWrites := rfl

@[simp]
theorem printOut_outputs (w : World) (s : String) :
    (printOut w s).outputs = w.outputs := rfl

@[simp]
theorem printOut_posted (w : World) (s : String) :
    (printOut w s).posted = w.posted := rfl

/-- C8: for every non-empty `CANCELLATION_REASON`, the cancel handler
prints the two fixed abort lines and sends
`\x7b"status":"UPDATE_MANUAL_APPROVAL_STATUS_ABORTED"\x7d` when the
reason is exactly `"CANCELLED"`, prints the two fixed timeout lines and
sends `UPDATE_MANUAL_APPROVAL_STATUS_TIMED_OUT` for any other non-empty
reason, and in all cases (success, failure, or missing variables) never
writes a status record. -/
theorem cancel_spec (env : Env) (client : HttpBehavior) (w : World)
    (hurl : env "URL" ≠ "") (htok : env "API_TOKEN" ≠ "")
    (hr : env "CANCELLATION_REASON" ≠ "") :
    (env "CANCELLATION_REASON" = "CANCELLED" →
      (∃ rest, (cancel env client w).1.prints =
        w.prints ++ ["Workflow aborted by user\n",
          "Cancelling the manual approval request\n"] ++ rest) ∧
      (cancel env client w).1.posted = w.posted ++
        [("/v1/workflows/approval/status",
          [("status", GoValue.str "UPDATE_MANUAL_APPROVAL_STATUS_ABORTED")])]) ∧
    (env "CANCELLATION_REASON" ≠ "CANCELLED" →
      (∃ rest, (cancel env client w).1.prints =
        w.prints ++ ["Workflow timed out\n",
          "Workflow approval response was not received within allotted time.\n"]
          ++ rest) ∧
      (cancel env client w).1.posted = w.posted ++
        [("/v1/workflows/approval/status",
          [("status", GoValue.str "UPDATE_MANUAL_APPROVAL_STATUS_TIMED_OUT")])]) ∧
    (∀ (env2 : Env) (client2 : HttpBehavior) (w2 : World),
      (cancel env2 client2 w2).1.statusWrites = w2.statusWrites) := by
  refine ⟨?_, ?_, ?_⟩
  · intro hc
    cases client with
    | transportErr m =>
      refine ⟨⟨["ERROR: API call failed with error: '" ++ m ++ "'\n",
        "ERROR: API response: ''\n"], ?_⟩, ?_⟩ <;>
        simp [cancel, hr, hc, post, hurl, htok]
    | resp code st bt =>
      by_cases h200 : code = 200
      · refine ⟨⟨[], ?_⟩, ?_⟩ <;> simp [cancel, hr, hc, post, hurl, htok, h200]
      · refine ⟨⟨["ERROR: API call failed with error: '" ++
          transportError (joinPath (env "URL") "/v1/workflows/approval/status")
            code st ++ "'\n",
          "ERROR: API response: '" ++ bt ++ "'\n"], ?_⟩, ?_⟩ <;>
          simp [cancel, hr, hc, post, hurl, htok, h200]
  · intro hc
    cases client with
    | transportErr m =>
      refine ⟨⟨["ERROR: API call failed with error: '" ++ m ++ "'\n",
        "ERROR: API response: ''\n"], ?_⟩, ?_⟩ <;>
        simp [cancel, hr, hc, post, hurl, htok]
    | resp code st bt =>
      by_cases h200 : code = 200
      · refine ⟨⟨[], ?_⟩, ?_⟩ <;> simp [cancel, hr, hc, post, hurl, htok, h200]
      · refine ⟨⟨["ERROR: API call failed with error: '" ++
          transportError (joinPath (env "URL") "/v1/workflows/approval/status")
            code st ++ "'\n",
          "ERROR: API response: '" ++ bt ++ "'\n"], ?_⟩, ?_⟩ <;>
          simp [cancel, hr, hc, post, hurl, htok, h200]
  · intro env2 client2 w2
    by_cases h0 : env2 "CANCELLATION_REASON" = ""
    · simp [cancel, h0]
    · by_cases hc2 : env2 "CANCELLATION_REASON" = "CANCELLED" <;>
        by_cases hu2 : env2 "URL" = "" <;>
        by_cases ht2 : env2 "API_TOKEN" = "" <;>
        cases client2 with
        | transportErr m => simp [cancel, post, h0, hc2, hu2, ht2]
        | resp code st bt =>
          by_cases h200 : code = 200 <;>
            simp [cancel, post, h0, hc2, hu2, ht2, h200]

/-- C8 witness: a `TIMED_OUT` cancellation against a 200 response sends
the timed-out status body, prints the two timeout lines, and writes no
status record. -/
theorem cancel_spec_witness :
    (∃ rest,
      (cancel (envOf [("URL", "http://test.com"), ("API_TOKEN", "test"),
        ("CANCELLATION_REASON", "TIMED_OUT")]) client200 World.empty).1.prints =
        World.empty.prints ++ ["Workflow timed out\n",
          "Workflow approval response was not received within allotted time.\n"]
          ++ rest) ∧
    (cancel (envOf [("URL", "http://test.com"), ("API_TOKEN", "test"),
        ("CANCELLATION_REASON", "TIMED_OUT")]) client200 World.empty).1.posted =
      World.empty.posted ++
        [("/v1/workflows/approval/status",
          [("status", GoValue.str "UPDATE_MANUAL_APPROVAL_STATUS_TIMED_OUT")])] ∧
    (cancel (envOf [("URL", "http://test.com"), ("API_TOKEN", "test"),
        ("CANCELLATION_REASON", "TIMED_OUT")]) client200
        World.empty).1.statusWrites = World.empty.statusWrites := by
  have h := cancel_spec
    (envOf [("URL", "http://test.com"), ("API_TOKEN", "test"),
      ("CANCELLATION_REASON", "TIMED_OUT")]) client200 World.empty
    (by decide) (by decide) (by decide)
  exact ⟨(h.2.1 (by decide)).1, (h.2.1 (by decide)).2,
    h.2.2 _ client200 World.empty⟩

/-- Helper: whenever `init` gets past boolean parsing and `URL` and
`API_TOKEN` are present, exactly one request is recorded, to
`/v1/workflows/approval` with the assembled body, whatever the response. -/
theorem init_posts (md : String → String) (env : Env) (client : HttpBehavior)
    (w : World) (db nb : Bool)
    (hdb : parseGoBool (if env "DISALLOW_LAUNCHED_BY_USER" = "" then "false"
      else env "DISALLOW_LAUNCHED_BY_USER") = Except.ok db)
    (hnb : parseGoBool (if env "NOTIFY_ALL_ELIGIBLE_USERS" = "" then "false"
      else env "NOTIFY_ALL_ELIGIBLE_USERS") = Except.ok nb)
    (hurl : env "URL" ≠ "") (htok : env "API_TOKEN" ≠ "") :
    (init md env client w).1.posted =
      w.posted ++ [("/v1/workflows/approval", initRequestBody env db nb)] := by
  cases client with
  | transportErr m =>
    by_cases hst : env "CLOUDBEES_STATUS" = "" <;>
      simp [init, hdb, hnb, post, hurl, htok, writeStatus, hst]
  | resp code st bt =>
    by_cases h200 : code = 200
    · rcases hresp : parseApprovalResponse bt with e | users <;>
        by_cases hst : env "CLOUDBEES_STATUS" = "" <;>
        simp [init, hdb, hnb, post, hurl, htok, h200, hresp, writeStatus, hst,
          apply_ite World.posted]
    · by_cases hst : env "CLOUDBEES_STATUS" = "" <;>
        simp [init, hdb, hnb, post, hurl, htok, h200, writeStatus, hst]

/-- C7: the init request body always contains the two boolean fields, and
contains `approvers`, `instructions` and `approvalInputs` exactly when
the corresponding environment variable is non-empty; a non-empty
`APPROVERS` is sent as its comma-split, order preserved, without
deduplication or trimming. -/
theorem init_request_body (md : String → String) (env : Env)
    (client : HttpBehavior) (w : World) (db nb : Bool)
    (hdb : parseGoBool (if env "DISALLOW_LAUNCHED_BY_USER" = "" then "false"
      else env "DISALLOW_LAUNCHED_BY_USER") = Except.ok db)
    (hnb : parseGoBool (if env "NOTIFY_ALL_ELIGIBLE_USERS" = "" then "false"
      else env "NOTIFY_ALL_ELIGIBLE_USERS") = Except.ok nb)
    (hurl : env "URL" ≠ "") (htok : env "API_TOKEN" ≠ "") :
    (init md env client w).1.posted =
      w.posted ++ [("/v1/workflows/approval", initRequestBody env db nb)] ∧
    mapGet (initRequestBody env db nb) "disallowLaunchedByUser" =
      some (GoValue.bool db) ∧
    mapGet (initRequestBody env db nb) "notifyEligibleUsers" =
      some (GoValue.bool nb) ∧
    (env "APPROVERS" = "" →
      mapGet (initRequestBody env db nb) "approvers" = none) ∧
    (env "APPROVERS" ≠ "" →
      mapGet (initRequestBody env db nb) "approvers" =
        some (GoValue.arr ((goSplit (env "APPROVERS") ",").map GoValue.str))) ∧
    (env "INSTRUCTIONS" = "" →
      mapGet (initRequestBody env db nb) "instructions" = none) ∧
    (env "INSTRUCTIONS" ≠ "" →
      mapGet (initRequestBody env db nb) "instructions" =
        some (GoValue.str (env "INSTRUCTIONS"))) ∧
    (env "INPUTS" = "" →
      mapGet (initRequestBody env db nb) "approvalInputs" = none) ∧
    (env "INPUTS" ≠ "" →
      mapGet (initRequestBody env db nb) "approvalInputs" =
        some (GoValue.str (env "INPUTS"))) := by
  refine ⟨init_posts md env client w db nb hdb hnb hurl htok, ?_⟩
  by_cases ha : env "APPROVERS" = "" <;>
    by_cases hi : env "INSTRUCTIONS" = "" <;>
    by_cases hp : env "INPUTS" = "" <;>
    simp [initRequestBody, mapGet, ha, hi, hp]

/-- C7 witness: with `APPROVERS="123,user@mail.com"` and the other
optional variables unset, the posted body carries exactly the split list
and the two boolean fields, and omits the absent optional fields. -/
theorem init_request_body_witness :
    (init id (envOf [("URL", "http://test.com"), ("API_TOKEN", "test"),
        ("APPROVERS", "123,user@mail.com")]) client200 World.empty).1.posted =
      World.empty.posted ++ [("/v1/workflows/approval",
        initRequestBody (envOf [("URL", "http://test.com"),
          ("API_TOKEN", "test"), ("APPROVERS", "123,user@mail.com")])
          false false)] ∧
    mapGet (initRequestBody (envOf [("URL", "http://test.com"),
        ("API_TOKEN", "test"), ("APPROVERS", "123,user@mail.com")])
        false false) "approvers" =
      some (GoValue.arr [GoValue.str "123", GoValue.str "user@mail.com"]) ∧
    mapGet (initRequestBody (envOf [("URL", "http://test.com"),
        ("API_TOKEN", "test"), ("APPROVERS", "123,user@mail.com")])
        false false) "disallowLaunchedByUser" = some (GoValue.bool false) ∧
    mapGet (initRequestBody (envOf [("URL", "http://test.com"),
        ("API_TOKEN", "test"), ("APPROVERS", "123,user@mail.com")])
        false false) "instructions" = none := by
  have h := init_request_body id
    (envOf [("URL", "http://test.com"), ("API_TOKEN", "test"),
      ("APPROVERS", "123,user@mail.com")]) client200 World.empty false false
    (by rfl) (by rfl) (by decide) (by decide)
  refine ⟨h.1, ?_, h.2.2.1, h.2.2.2.2.2.1 (by decide)⟩
  have ha := h.2.2.2.2.1 (by decide)
  rw [ha]
  rfl

/-- C6: a non-empty, unparseable `DISALLOW_LAUNCHED_BY_USER` (or, with a
parseable first flag, a non-empty unparseable
`NOTIFY_ALL_ELIGIBLE_USERS`) makes `init` return exactly the underlying
`strconv.ParseBool` error with the world untouched — nothing printed, no
HTTP request recorded, no status record written; and when both variables
are empty they are treated as `"false"`, the posted body carrying
`false` for both boolean fields. -/
theorem init_bool_env_validation (md : String → String) (env : Env)
    (client : HttpBehavior) (w : World) :
    (env "DISALLOW_LAUNCHED_BY_USER" ≠ "" →
      ∀ e, parseGoBool (env "DISALLOW_LAUNCHED_BY_USER") = Except.error e →
      init md env client w = (w, RunResult.err e)) ∧
    (∀ db, parseGoBool (if env "DISALLOW_LAUNCHED_BY_USER" = "" then "false"
        else env "DISALLOW_LAUNCHED_BY_USER") = Except.ok db →
      env "NOTIFY_ALL_ELIGIBLE_USERS" ≠ "" →
      ∀ e, parseGoBool (env "NOTIFY_ALL_ELIGIBLE_USERS") = Except.error e →
      init md env client w = (w, RunResult.err e)) ∧
    (env "DISALLOW_LAUNCHED_BY_USER" = "" →
      env "NOTIFY_ALL_ELIGIBLE_USERS" = "" →
      env "URL" ≠ "" → env "API_TOKEN" ≠ "" →
      (init md env client w).1.posted = w.posted ++
        [("/v1/workflows/approval", initRequestBody env false false)] ∧
      mapGet (initRequestBody env false false) "disallowLaunchedByUser" =
        some (GoValue.bool false) ∧
      mapGet (initRequestBody env false false) "notifyEligibleUsers" =
        some (GoValue.bool false)) := by
  refine ⟨?_, ?_, ?_⟩
  · intro hne e he
    simp [init, hne, he]
  · intro db hdb hne e he
    simp [init, hdb, hne, he]
  · intro hd hn hurl htok
    have hdb : parseGoBool (if env "DISALLOW_LAUNCHED_BY_USER" = ""
        then "false" else env "DISALLOW_LAUNCHED_BY_USER") = Except.ok false := by
      rw [if_pos hd]; rfl
    have hnb : parseGoBool (if env "NOTIFY_ALL_ELIGIBLE_USERS" = ""
        then "false" else env "NOTIFY_ALL_ELIGIBLE_USERS") = Except.ok false := by
      rw [if_pos hn]; rfl
    have h := init_request_body md env client w false false hdb hnb hurl htok
    exact ⟨h.1, h.2.1, h.2.2.1⟩

/-- C6 witness: `DISALLOW_LAUNCHED_BY_USER="not a boolean"` aborts `init`
with the exact `strconv.ParseBool` error and an untouched world. -/
theorem init_bool_env_validation_witness :
    init id (envOf [("URL", "http://test.com"), ("API_TOKEN", "test"),
      ("DISALLOW_LAUNCHED_BY_USER", "not a boolean")]) client200 World.empty =
    (World.empty, RunResult.err
      "strconv.ParseBool: parsing \"not a boolean\": invalid syntax") := by
  exact (init_bool_env_validation id
    (envOf [("URL", "http://test.com"), ("API_TOKEN", "test"),
      ("DISALLOW_LAUNCHED_BY_USER", "not a boolean")]) client200
    World.empty).1 (by decide) _ (by rfl)

/-- Inversion of one successful `processInputs` step: the entry is an
object with a string name, its value coerces, the tail processes with the
value recorded in the accumulator, and the head of the result carries the
coerced value. -/
theorem processInputs_cons_ok {e : GoValue} {rest : List GoValue}
    {acc : List (String × GoValue)} {mods : List GoValue}
    {out : List (String × GoValue)}
    (h : processInputs (e :: rest) acc = PanicOr.ok (mods, out)) :
    ∃ ip nm s rest1, e = GoValue.obj ip ∧
      goIndex ip "name" = GoValue.str nm ∧
      interfaceToString (goIndex ip "value") = PanicOr.ok s ∧
      processInputs rest (mapInsert acc nm (goIndex ip "value")) =
        PanicOr.ok (rest1, out) ∧
      mods = GoValue.obj (mapInsert ip "value" (GoValue.str s)) :: rest1 := by
  cases e with
  | obj ip =>
    cases hnm : goIndex ip "name" with
    | str nm =>
      cases hs : interfaceToString (goIndex ip "value") with
      | ok s =>
        cases hrec : processInputs rest (mapInsert acc nm (goIndex ip "value")) with
        | ok pr =>
          obtain ⟨rest1, out1⟩ := pr
          simp only [processInputs, hnm, hs, hrec, PanicOr.ok.injEq,
            Prod.mk.injEq] at h
          exact ⟨ip, nm, s, rest1, rfl, hnm, hs, by rw [hrec, h.2],
            h.1.symm⟩
        | panicked m => simp [processInputs, hnm, hs, hrec] at h
      | panicked m => simp [processInputs, hnm, hs] at h
    | null => simp [processInputs, hnm] at h
    | bool b => simp [processInputs, hnm] at h
    | num f => simp [processInputs, hnm] at h
    | int n => simp [processInputs, hnm] at h
    | arr xs => simp [processInputs, hnm] at h
    | obj g => simp [processInputs, hnm] at h
  | null => simp [processInputs] at h
  | bool b => simp [processInputs] at h
  | num f => simp [processInputs] at h
  | str s => simp [processInputs] at h
  | int n => simp [processInputs] at h
  | arr xs => simp [processInputs] at h

/-- A successful `processInputs` keeps the list length. -/
theorem processInputs_length {ins : List GoValue}
    {acc out : List (String × GoValue)} {mods : List GoValue}
    (h : processInputs ins acc = PanicOr.ok (mods, out)) :
    mods.length = ins.length := by
  induction ins generalizing acc mods out with
  | nil =>
    simp only [processInputs, PanicOr.ok.injEq, Prod.mk.injEq] at h
    rw [← h.1]
  | cons e rest ih =>
    obtain ⟨ip, nm, s, rest1, he, hnm, hs, hrec, hmods⟩ := processInputs_cons_ok h
    subst hmods
    simp [ih hrec]

/-- Pointwise structure of a successful `processInputs`: the entry at
each index is an object whose value coerces, and the output entry is the
same object with the coerced string in place of `value`. -/
theorem processInputs_entry {ins : List GoValue}
    {acc out : List (String × GoValue)} {mods : List GoValue}
    (h : processInputs ins acc = PanicOr.ok (mods, out)) :
    ∀ (i : Nat) (ip : List (String × GoValue)),
      ins[i]? = some (GoValue.obj ip) →
      ∃ s, interfaceToString (goIndex ip "value") = PanicOr.ok s ∧
        mods[i]? = some (GoValue.obj (mapInsert ip "value" (GoValue.str s))) := by
  induction ins generalizing acc mods out with
  | nil => intro i ip hip; simp at hip
  | cons e rest ih =>
    obtain ⟨ip0, nm, s0, rest1, he, hnm, hs, hrec, hmods⟩ := processInputs_cons_ok h
    subst hmods he
    intro i ip hip
    cases i with
    | zero =>
      simp only [List.getElem?_cons_zero, Option.some.injEq,
        GoValue.obj.injEq] at hip
      subst hip
      exact ⟨s0, hs, by simp⟩
    | succ j =>
      simp only [List.getElem?_cons_succ] at hip ⊢
      exact ih hrec j ip hip

/-- The outputs map produced by `processInputs`: a name maps to the value
of the last entry carrying it, falling back to the accumulator. -/
theorem processInputs_mapGet {ins : List GoValue}
    {acc out : List (String × GoValue)} {mods : List GoValue}
    (h : processInputs ins acc = PanicOr.ok (mods, out)) (nm : String) :
    mapGet out nm = (lastEntryValue ins nm).or (mapGet acc nm) := by
  induction ins generalizing acc mods out with
  | nil =>
    simp only [processInputs, PanicOr.ok.injEq, Prod.mk.injEq] at h
    rw [← h.2]
    simp [lastEntryValue]
  | cons e rest ih =>
    obtain ⟨ip0, nm0, s0, rest1, he, hnm0, hs, hrec, hmods⟩ :=
      processInputs_cons_ok h
    subst he
    have hih := ih hrec
    rw [hih, mapGet_mapInsert]
    have hen : entryName (GoValue.obj ip0) = nm0 := by simp [entryName, hnm0]
    have hev : entryValue (GoValue.obj ip0) = goIndex ip0 "value" := rfl
    cases hlast : lastEntryValue rest nm with
    | some v => simp [lastEntryValue, hlast]
    | none =>
      by_cases heq : nm0 = nm
      · subst heq
        simp [lastEntryValue, hlast, hen, hev]
      · have : ¬entryName (GoValue.obj ip0) = nm := by rw [hen]; exact heq
        simp [lastEntryValue, hlast, this, heq]

/-- A name that labels no entry has no last value. -/
theorem lastEntryValue_eq_none {ins : List GoValue} {nm : String}
    (h : nm ∉ ins.map entryName) : lastEntryValue ins nm = none := by
  induction ins with
  | nil => rfl
  | cons e rest ih =>
    simp only [List.map_cons, List.mem_cons] at h
    push_neg at h
    have hne : ¬entryName e = nm := fun hh => h.1 hh.symm
    simp [lastEntryValue, ih h.2, hne]

/-- Under pairwise-distinct entry names, the last value carried by an
entry's name is that entry's own value. -/
theorem lastEntryValue_of_get {ins : List GoValue} {i : Nat}
    {ip : List (String × GoValue)} {nm : String}
    (hnodup : (ins.map entryName).Nodup)
    (hip : ins[i]? = some (GoValue.obj ip))
    (hnm : goIndex ip "name" = GoValue.str nm) :
    lastEntryValue ins nm = some (goIndex ip "value") := by
  induction ins generalizing i with
  | nil => simp at hip
  | cons e rest ih =>
    simp only [List.map_cons, List.nodup_cons] at hnodup
    cases i with
    | zero =>
      simp only [List.getElem?_cons_zero, Option.some.injEq] at hip
      subst hip
      have hen : entryName (GoValue.obj ip) = nm := by simp [entryName, hnm]
      have hnin : nm ∉ rest.map entryName := by rw [← hen]; exact hnodup.1
      simp [lastEntryValue, lastEntryValue_eq_none hnin, hen, entryValue]
    | succ j =>
      simp only [List.getElem?_cons_succ] at hip
      simp [lastEntryValue, ih hnodup.2 hip]

/-- C1: on a successful `formatInputsForPost`, every input entry with
pairwise-distinct names whose value is a supported dynamic type (string,
float64 number, boolean) has its original dynamically-typed value stored
in the outputs map under its name, while the corresponding entry of the
mutated outbound payload has its value replaced by the string coercion. -/
theorem formatInputsForPost_roundtrip
    (p : List (String × GoValue)) (ins mods : List GoValue)
    (outMap newP : List (String × GoValue))
    (hins : goIndex p "inputs" = GoValue.arr ins)
    (hok : formatInputsForPost p = PanicOr.ok (mods, outMap, newP))
    (hnodup : (ins.map entryName).Nodup)
    (i : Nat) (ip : List (String × GoValue))
    (hip : ins[i]? = some (GoValue.obj ip))
    (nm : String) (hnm : goIndex ip "name" = GoValue.str nm)
    (_hsupp : isSupportedInput (goIndex ip "value") = true) :
    mapGet outMap nm = some (goIndex ip "value") ∧
    goIndex newP "inputs" = GoValue.arr mods ∧
    ∃ s, interfaceToString (goIndex ip "value") = PanicOr.ok s ∧
      mods[i]? = some (GoValue.obj (mapInsert ip "value" (GoValue.str s))) := by
  have hlen : 0 < ins.length := by
    cases ins with
    | nil => simp at hip
    | cons a l => simp
  simp only [formatInputsForPost, hins, if_pos hlen] at hok
  cases hpi : processInputs ins [] with
  | ok pr =>
    obtain ⟨mods1, out1⟩ := pr
    simp only [hpi, PanicOr.ok.injEq, Prod.mk.injEq] at hok
    obtain ⟨h1, h2, h3⟩ := hok
    subst h1 h2 h3
    refine ⟨?_, goIndex_mapInsert_self p "inputs" (GoValue.arr mods1), ?_⟩
    · rw [processInputs_mapGet hpi nm, lastEntryValue_of_get hnodup hip hnm]
      rfl
    · exact processInputs_entry hpi i ip hip
  | panicked m => simp [hpi] at hok

/-- C1 witness: a payload with one boolean input — the outputs map keeps
the boolean `true` while the outbound entry's value becomes the transport
string `"true"`. -/
theorem formatInputsForPost_roundtrip_witness :
    mapGet [("reqBoolInput", GoValue.bool true)] "reqBoolInput" =
      some (GoValue.bool true) ∧
    goIndex [("inputs", GoValue.arr
        [GoValue.obj [("name", GoValue.str "reqBoolInput"),
          ("value", GoValue.str "true"), ("is_default", GoValue.bool true)]])]
      "inputs" = GoValue.arr
        [GoValue.obj [("name", GoValue.str "reqBoolInput"),
          ("value", GoValue.str "true"), ("is_default", GoValue.bool true)]] ∧
    ∃ s, interfaceToString (goIndex [("name", GoValue.str "reqBoolInput"),
        ("value", GoValue.bool true), ("is_default", GoValue.bool true)]
        "value") = PanicOr.ok s ∧
      [GoValue.obj [("name", GoValue.str "reqBoolInput"),
        ("value", GoValue.str "true"), ("is_default", GoValue.bool true)]][0]? =
        some (GoValue.obj (mapInsert
          [("name", GoValue.str "reqBoolInput"), ("value", GoValue.bool true),
           ("is_default", GoValue.bool true)] "value" (GoValue.str s))) := by
  exact formatInputsForPost_roundtrip
    [("inputs", GoValue.arr
      [GoValue.obj [("name", GoValue.str "reqBoolInput"),
        ("value", GoValue.bool true), ("is_default", GoValue.bool true)]])]
    [GoValue.obj [("name", GoValue.str "reqBoolInput"),
      ("value", GoValue.bool true), ("is_default", GoValue.bool true)]]
    [GoValue.obj [("name", GoValue.str "reqBoolInput"),
      ("value", GoValue.str "true"), ("is_default", GoValue.bool true)]]
    [("reqBoolInput", GoValue.bool true)]
    [("inputs", GoValue.arr
      [GoValue.obj [("name", GoValue.str "reqBoolInput"),
        ("value", GoValue.str "true"), ("is_default", GoValue.bool true)]])]
    rfl rfl (by simp) 0
    [("name", GoValue.str "reqBoolInput"), ("value", GoValue.bool true),
     ("is_default", GoValue.bool true)]
    rfl "reqBoolInput" rfl rfl

/-- Every entry of a successfully processed input list is an object whose
(coerced) `value` is a string. -/
theorem processInputs_wellformed {ins : List GoValue}
    {acc out : List (String × GoValue)} {mods : List GoValue}
    (h : processInputs ins acc = PanicOr.ok (mods, out)) :
    ∀ m ∈ mods, ∃ ip s, m = GoValue.obj ip ∧
      goIndex ip "value" = GoValue.str s := by
  induction ins generalizing acc mods out with
  | nil =>
    simp only [processInputs, PanicOr.ok.injEq, Prod.mk.injEq] at h
    rw [← h.1]
    intro m hm
    simp at hm
  | cons e rest ih =>
    obtain ⟨ip, nm, s, rest1, he, hnm, hs, hrec, hmods⟩ := processInputs_cons_ok h
    subst hmods
    intro m hm
    rcases List.mem_cons.mp hm with hm0 | hmr
    · exact ⟨mapInsert ip "value" (GoValue.str s), s, hm0,
        goIndex_mapInsert_self ip "value" (GoValue.str s)⟩
    · exact ih hrec m hmr

/-- Every entry of the coerced list returned by a successful
`formatInputsForPost` is an object whose `value` is a string. -/
theorem formatInputsForPost_wellformed {p : List (String × GoValue)}
    {mods : List GoValue} {out newP : List (String × GoValue)}
    (h : formatInputsForPost p = PanicOr.ok (mods, out, newP)) :
    ∀ m ∈ mods, ∃ ip s, m = GoValue.obj ip ∧
      goIndex ip "value" = GoValue.str s := by
  cases hins : goIndex p "inputs" with
  | null =>
    simp only [formatInputsForPost, hins, PanicOr.ok.injEq, Prod.mk.injEq] at h
    rw [← h.1]
    intro m hm
    simp at hm
  | arr ins =>
    by_cases hlen : 0 < ins.length
    · simp only [formatInputsForPost, hins, if_pos hlen] at h
      cases hpi : processInputs ins [] with
      | ok pr =>
        obtain ⟨mods1, out1⟩ := pr
        simp only [hpi, PanicOr.ok.injEq, Prod.mk.injEq] at h
        rw [← h.1]
        exact processInputs_wellformed hpi
      | panicked m => simp [hpi] at h
    · simp only [formatInputsForPost, hins, if_neg hlen, PanicOr.ok.injEq,
        Prod.mk.injEq] at h
      rw [← h.1]
      intro m hm
      simp at hm
  | bool b => simp [formatInputsForPost, hins] at h
  | num f => simp [formatInputsForPost, hins] at h
  | str s => simp [formatInputsForPost, hins] at h
  | int n => simp [formatInputsForPost, hins] at h
  | obj g => simp [formatInputsForPost, hins] at h

/-- The parameter-log loop never panics on well-formed (coerced) entries
and only prints: status records, artifacts and requests are untouched. -/
theorem logInputs_wellformed (mods : List GoValue)
    (h : ∀ m ∈ mods, ∃ ip s, m = GoValue.obj ip ∧
      goIndex ip "value" = GoValue.str s) (w : World) :
    (logInputs w mods).2 = none ∧
    (logInputs w mods).1.statusWrites = w.statusWrites ∧
    (logInputs w mods).1.outputs = w.outputs ∧
    (logInputs w mods).1.posted = w.posted := by
  induction mods generalizing w with
  | nil => exact ⟨rfl, rfl, rfl, rfl⟩
  | cons e rest ih =>
    obtain ⟨ip, s, he, hv⟩ := h e (by simp)
    subst he
    have hrest : ∀ m ∈ rest, ∃ ip s, m = GoValue.obj ip ∧
        goIndex ip "value" = GoValue.str s :=
      fun m hm => h m (by simp [hm])
    simp only [logInputs, hv]
    exact ih hrest _

/-- `formatInputsValsAndWriteToLog` on well-formed entries: no panic, and
only printed lines change. -/
theorem formatLog_wellformed (mods : List GoValue)
    (h : ∀ m ∈ mods, ∃ ip s, m = GoValue.obj ip ∧
      goIndex ip "value" = GoValue.str s) (w : World) :
    (formatInputsValsAndWriteToLog w mods).2 = none ∧
    (formatInputsValsAndWriteToLog w mods).1.statusWrites = w.statusWrites ∧
    (formatInputsValsAndWriteToLog w mods).1.outputs = w.outputs ∧
    (formatInputsValsAndWriteToLog w mods).1.posted = w.posted := by
  by_cases h0 : 0 < mods.length
  · simp only [formatInputsValsAndWriteToLog, if_pos h0]
    exact logInputs_wellformed mods h _
  · simp [formatInputsValsAndWriteToLog, h0]

/-- Reduction of `callback` to `callbackSend` once the payload has been
read, decoded, asserted and split for the POST. -/
theorem callback_reduces (env : Env) (client : HttpBehavior) (w : World)
    {fs mutp : List (String × GoValue)} {aS cm rO uN : String}
    {mods : List GoValue} {out : List (String × GoValue)}
    (hne : env "PAYLOAD" ≠ "")
    (hjson : jsonParse (env "PAYLOAD") = some (GoValue.obj fs))
    (hs : goIndex fs "status" = GoValue.str aS)
    (hc : goIndex fs "comments" = GoValue.str cm)
    (hr : goIndex fs "respondedOn" = GoValue.str rO)
    (hu : goIndex fs "userName" = GoValue.str uN)
    (hfmt : formatInputsForPost fs = PanicOr.ok (mods, out, mutp)) :
    callback env client w =
      callbackSend env client w aS cm rO uN mods out mutp := by
  simp [callback, hne, hjson, hs, hc, hr, hu, hfmt, asString]

/-- `callbackFinish` with both output variables configured and
well-formed entries: it appends the two artifacts (the input-value
artifact even when the captured map is empty), writes the job-status
record last, and succeeds. -/
theorem callbackFinish_spec (env : Env) (w2 : World) (jobStatus : String)
    (mods : List GoValue) (out : List (String × GoValue)) (cm : String)
    (hstat : env "CLOUDBEES_STATUS" ≠ "")
    (houtp : env "CLOUDBEES_OUTPUTS" ≠ "")
    (hwf : ∀ m ∈ mods, ∃ ip s, m = GoValue.obj ip ∧
      goIndex ip "value" = GoValue.str s) :
    (callbackFinish env w2 jobStatus mods out cm).2 = RunResult.ok ∧
    (callbackFinish env w2 jobStatus mods out cm).1.statusWrites =
      w2.statusWrites ++
        [(jobStatus, "Successfully changed workflow manual approval status")] ∧
    (callbackFinish env w2 jobStatus mods out cm).1.outputs =
      w2.outputs ++
        [("approvalInputValues", jsonEncode (GoValue.obj out)),
         ("comments", cm)] := by
  rcases hlog : formatInputsValsAndWriteToLog w2 mods with ⟨w3, r3⟩
  have hl := formatLog_wellformed mods hwf w2
  rw [hlog] at hl
  obtain ⟨h2, hsw, hout, hpost⟩ := hl
  simp only at h2 hsw hout hpost
  subst h2
  simp [callbackFinish, hlog, writeToOutputs, writeAsOutput, houtp,
    writeStatus, hstat, hsw, hout]

/-- `callbackFinish` with no outputs directory configured: the first
artifact write fails, its error is returned, and the job-status record is
never written. -/
theorem callbackFinish_missing_outputs (env : Env) (w2 : World)
    (jobStatus : String) (mods : List GoValue)
    (out : List (String × GoValue)) (cm : String)
    (houtp : env "CLOUDBEES_OUTPUTS" = "")
    (hwf : ∀ m ∈ mods, ∃ ip s, m = GoValue.obj ip ∧
      goIndex ip "value" = GoValue.str s) :
    (callbackFinish env w2 jobStatus mods out cm).2 =
      RunResult.err "CLOUDBEES_OUTPUTS environment variable missing" ∧
    (callbackFinish env w2 jobStatus mods out cm).1.statusWrites =
      w2.statusWrites := by
  rcases hlog : formatInputsValsAndWriteToLog w2 mods with ⟨w3, r3⟩
  have hl := formatLog_wellformed mods hwf w2
  rw [hlog] at hl
  obtain ⟨h2, hsw, hout, hpost⟩ := hl
  simp only at h2 hsw hout hpost
  subst h2
  simp [callbackFinish, hlog, writeToOutputs, writeAsOutput, houtp, hsw]

/-- The callback tail on a 200 response with a status that maps to a job
outcome: the job-status record is written last, the two artifacts are
written (the input-value artifact even when the captured map is empty),
and the handler returns without error. -/
theorem callbackSend_success (env : Env) (st bt : String) (w : World)
    (aS cm rO uN : String) (mods : List GoValue)
    (out mutp : List (String × GoValue)) (jobStatus : String)
    (hurl : env "URL" ≠ "") (htok : env "API_TOKEN" ≠ "")
    (hstat : env "CLOUDBEES_STATUS" ≠ "")
    (houtp : env "CLOUDBEES_OUTPUTS" ≠ "")
    (hwf : ∀ m ∈ mods, ∃ ip s, m = GoValue.obj ip ∧
      goIndex ip "value" = GoValue.str s)
    (hjob : (aS = "UPDATE_MANUAL_APPROVAL_STATUS_APPROVED" ∧
        jobStatus = "APPROVED") ∨
      (aS = "UPDATE_MANUAL_APPROVAL_STATUS_REJECTED" ∧
        jobStatus = "REJECTED")) :
    (callbackSend env (HttpBehavior.resp 200 st bt) w aS cm rO uN mods out
      mutp).2 = RunResult.ok ∧
    (callbackSend env (HttpBehavior.resp 200 st bt) w aS cm rO uN mods out
      mutp).1.statusWrites = w.statusWrites ++
        [(jobStatus, "Successfully changed workflow manual approval status")] ∧
    (callbackSend env (HttpBehavior.resp 200 st bt) w aS cm rO uN mods out
      mutp).1.outputs = w.outputs ++
        [("approvalInputValues", jsonEncode (GoValue.obj out)),
         ("comments", cm)] := by
  rcases hjob with ⟨hA, hJ⟩ | ⟨hA, hJ⟩ <;> subst hA <;> subst hJ <;>
    simp only [callbackSend, post, hurl, htok, processApprovalStatus,
      String.reduceEq, reduceIte] <;>
    refine ⟨?_, ?_, ?_⟩
  · exact (callbackFinish_spec env _ "APPROVED" mods out cm hstat houtp hwf).1
  · rw [(callbackFinish_spec env _ "APPROVED" mods out cm hstat houtp hwf).2.1]
    simp
  · rw [(callbackFinish_spec env _ "APPROVED" mods out cm hstat houtp hwf).2.2]
    simp
  · exact (callbackFinish_spec env _ "REJECTED" mods out cm hstat houtp hwf).1
  · rw [(callbackFinish_spec env _ "REJECTED" mods out cm hstat houtp hwf).2.1]
    simp
  · rw [(callbackFinish_spec env _ "REJECTED" mods out cm hstat houtp hwf).2.2]
    simp

/-- The callback tail on a 200 response with an unexpected status: the
error line is printed, a `FAILED` record with the same message is
written, and that message is returned as the error — even though the
remote POST already succeeded (the request is still recorded). -/
theorem callbackSend_unexpected (env : Env) (st bt : String) (w : World)
    (aS cm rO uN : String) (mods : List GoValue)
    (out mutp : List (String × GoValue))
    (hurl : env "URL" ≠ "") (htok : env "API_TOKEN" ≠ "")
    (hstat : env "CLOUDBEES_STATUS" ≠ "")
    (hA : aS ≠ "UPDATE_MANUAL_APPROVAL_STATUS_APPROVED")
    (hR : aS ≠ "UPDATE_MANUAL_APPROVAL_STATUS_REJECTED") :
    (callbackSend env (HttpBehavior.resp 200 st bt) w aS cm rO uN mods out
      mutp).2 = RunResult.err ("Unexpected approval status '" ++ aS ++ "'") ∧
    (callbackSend env (HttpBehavior.resp 200 st bt) w aS cm rO uN mods out
      mutp).1.statusWrites = w.statusWrites ++
        [("FAILED", "Unexpected approval status '" ++ aS ++ "'")] ∧
    (callbackSend env (HttpBehavior.resp 200 st bt) w aS cm rO uN mods out
      mutp).1.prints = w.prints ++
        ["ERROR: Unexpected approval status '" ++ aS ++ "'\n"] ∧
    (callbackSend env (HttpBehavior.resp 200 st bt) w aS cm rO uN mods out
      mutp).1.posted = w.posted ++
        [("/v1/workflows/approval/status", mutp)] := by
  refine ⟨?_, ?_, ?_, ?_⟩ <;>
    simp [callbackSend, post, hurl, htok, processApprovalStatus, hA, hR,
      writeStatus, hstat]

/-- The callback tail on a 200 response, mapped status, but no
`CLOUDBEES_OUTPUTS`: the artifact write fails, that error is returned,
and no status record at all is written — the job outcome never reaches
the status file although the remote status change succeeded. -/
theorem callbackSend_missing_outputs (env : Env) (st bt : String)
    (w : World) (aS cm rO uN : String) (mods : List GoValue)
    (out mutp : List (String × GoValue)) (jobStatus : String)
    (hurl : env "URL" ≠ "") (htok : env "API_TOKEN" ≠ "")
    (houtp : env "CLOUDBEES_OUTPUTS" = "")
    (hwf : ∀ m ∈ mods, ∃ ip s, m = GoValue.obj ip ∧
      goIndex ip "value" = GoValue.str s)
    (hjob : (aS = "UPDATE_MANUAL_APPROVAL_STATUS_APPROVED" ∧
        jobStatus = "APPROVED") ∨
      (aS = "UPDATE_MANUAL_APPROVAL_STATUS_REJECTED" ∧
        jobStatus = "REJECTED")) :
    (callbackSend env (HttpBehavior.resp 200 st bt) w aS cm rO uN mods out
      mutp).2 = RunResult.err "CLOUDBEES_OUTPUTS environment variable missing" ∧
    (callbackSend env (HttpBehavior.resp 200 st bt) w aS cm rO uN mods out
      mutp).1.statusWrites = w.statusWrites := by
  rcases hjob with ⟨hA, hJ⟩ | ⟨hA, hJ⟩ <;> subst hA <;>
    simp only [callbackSend, post, hurl, htok, processApprovalStatus,
      String.reduceEq, reduceIte] <;>
    refine ⟨?_, ?_⟩
  · exact (callbackFinish_missing_outputs env _ "APPROVED" mods out cm
      houtp hwf).1
  · rw [(callbackFinish_missing_outputs env _ "APPROVED" mods out cm
      houtp hwf).2]
    simp
  · exact (callbackFinish_missing_outputs env _ "REJECTED" mods out cm
      houtp hwf).1
  · rw [(callbackFinish_missing_outputs env _ "REJECTED" mods out cm
      houtp hwf).2]
    simp

/-- The callback tail on a non-200 response: the transport error and the
raw response body are printed, a `FAILED` record embedding the error text
is written when the status file is configured (the transport error is
then returned), and a failing status write takes precedence. -/
theorem callbackSend_non200 (env : Env) (code : Nat) (st bt : String)
    (w : World) (aS cm rO uN : String) (mods : List GoValue)
    (out mutp : List (String × GoValue))
    (hurl : env "URL" ≠ "") (htok : env "API_TOKEN" ≠ "")
    (hcode : code ≠ 200) :
    (callbackSend env (HttpBehavior.resp code st bt) w aS cm rO uN mods out
      mutp).1.prints = w.prints ++
        ["ERROR: API call failed with error: '" ++
          transportError (joinPath (env "URL")
            "/v1/workflows/approval/status") code st ++ "'\n",
         "ERROR: API response: '" ++ bt ++ "'\n"] ∧
    (env "CLOUDBEES_STATUS" ≠ "" →
      (callbackSend env (HttpBehavior.resp code st bt) w aS cm rO uN mods out
        mutp).1.statusWrites = w.statusWrites ++
          [("FAILED", "Failed to change workflow manual approval status: '" ++
            transportError (joinPath (env "URL")
              "/v1/workflows/approval/status") code st ++ "'")] ∧
      (callbackSend env (HttpBehavior.resp code st bt) w aS cm rO uN mods out
        mutp).2 = RunResult.err (transportError (joinPath (env "URL")
          "/v1/workflows/approval/status") code st)) ∧
    (env "CLOUDBEES_STATUS" = "" →
      (callbackSend env (HttpBehavior.resp code st bt) w aS cm rO uN mods out
        mutp).1.statusWrites = w.statusWrites ∧
      (callbackSend env (HttpBehavior.resp code st bt) w aS cm rO uN mods out
        mutp).2 = RunResult.err "CLOUDBEES_STATUS environment variable missing") := by
  refine ⟨?_, fun hstat => ⟨?_, ?_⟩, fun hstat => ⟨?_, ?_⟩⟩ <;>
    by_cases hstat2 : env "CLOUDBEES_STATUS" = "" <;>
    simp_all [callbackSend, post, hurl, htok, hcode, writeStatus,
      transportError]

/-- `init` on a non-200 response: the transport error and the raw
response body are printed, a `FAILED` record embedding the error text is
written when the status file is configured (the transport error is then
returned), and a failing status write takes precedence. -/
theorem init_non200 (md : String → String) (env : Env) (code : Nat)
    (st bt : String) (w : World) (db nb : Bool)
    (hdb : parseGoBool (if env "DISALLOW_LAUNCHED_BY_USER" = "" then "false"
      else env "DISALLOW_LAUNCHED_BY_USER") = Except.ok db)
    (hnb : parseGoBool (if env "NOTIFY_ALL_ELIGIBLE_USERS" = "" then "false"
      else env "NOTIFY_ALL_ELIGIBLE_USERS") = Except.ok nb)
    (hurl : env "URL" ≠ "") (htok : env "API_TOKEN" ≠ "")
    (hcode : code ≠ 200) :
    (init md env (HttpBehavior.resp code st bt) w).1.prints = w.prints ++
      ["ERROR: API call failed with error: '" ++
        transportError (joinPath (env "URL") "/v1/workflows/approval")
          code st ++ "'\n",
       "ERROR: API response: '" ++ bt ++ "'\n"] ∧
    (env "CLOUDBEES_STATUS" ≠ "" →
      (init md env (HttpBehavior.resp code st bt) w).1.statusWrites =
        w.statusWrites ++
          [("FAILED", "Failed to initialize workflow manual approval request: '"
            ++ transportError (joinPath (env "URL") "/v1/workflows/approval")
              code st ++ "'")] ∧
      (init md env (HttpBehavior.resp code st bt) w).2 =
        RunResult.err (transportError (joinPath (env "URL")
          "/v1/workflows/approval") code st)) ∧
    (env "CLOUDBEES_STATUS" = "" →
      (init md env (HttpBehavior.resp code st bt) w).1.statusWrites =
        w.statusWrites ∧
      (init md env (HttpBehavior.resp code st bt) w).2 =
        RunResult.err "CLOUDBEES_STATUS environment variable missing") := by
  refine ⟨?_, fun hstat => ⟨?_, ?_⟩, fun hstat => ⟨?_, ?_⟩⟩ <;>
    by_cases hstat2 : env "CLOUDBEES_STATUS" = "" <;>
    simp_all [init, hdb, hnb, post, hurl, htok, hcode, writeStatus,
      transportError]

/-- C3: for every callback invocation whose POST succeeds (a 200
response): status `UPDATE_MANUAL_APPROVAL_STATUS_APPROVED` makes the job
outcome `APPROVED` and `UPDATE_MANUAL_APPROVAL_STATUS_REJECTED` makes it
`REJECTED` (the final status record carries that outcome); any other
status prints the unexpected status, writes a `FAILED` record whose
message is `Unexpected approval status '<status>'`, and fails the
invocation with that same error although the POST already succeeded. -/
theorem callback_status_mapping (env : Env) (w : World) (st bt : String)
    {fs mutp : List (String × GoValue)} {aS cm rO uN : String}
    {mods : List GoValue} {out : List (String × GoValue)}
    (hne : env "PAYLOAD" ≠ "")
    (hjson : jsonParse (env "PAYLOAD") = some (GoValue.obj fs))
    (hs : goIndex fs "status" = GoValue.str aS)
    (hc : goIndex fs "comments" = GoValue.str cm)
    (hr : goIndex fs "respondedOn" = GoValue.str rO)
    (hu : goIndex fs "userName" = GoValue.str uN)
    (hfmt : formatInputsForPost fs = PanicOr.ok (mods, out, mutp))
    (hurl : env "URL" ≠ "") (htok : env "API_TOKEN" ≠ "")
    (hstat : env "CLOUDBEES_STATUS" ≠ "")
    (houtp : env "CLOUDBEES_OUTPUTS" ≠ "") :
    (aS = "UPDATE_MANUAL_APPROVAL_STATUS_APPROVED" →
      (callback env (HttpBehavior.resp 200 st bt) w).2 = RunResult.ok ∧
      (callback env (HttpBehavior.resp 200 st bt) w).1.statusWrites =
        w.statusWrites ++
          [("APPROVED", "Successfully changed workflow manual approval status")]) ∧
    (aS = "UPDATE_MANUAL_APPROVAL_STATUS_REJECTED" →
      (callback env (HttpBehavior.resp 200 st bt) w).2 = RunResult.ok ∧
      (callback env (HttpBehavior.resp 200 st bt) w).1.statusWrites =
        w.statusWrites ++
          [("REJECTED", "Successfully changed workflow manual approval status")]) ∧
    (aS ≠ "UPDATE_MANUAL_APPROVAL_STATUS_APPROVED" →
      aS ≠ "UPDATE_MANUAL_APPROVAL_STATUS_REJECTED" →
      (callback env (HttpBehavior.resp 200 st bt) w).2 =
        RunResult.err ("Unexpected approval status '" ++ aS ++ "'") ∧
      (callback env (HttpBehavior.resp 200 st bt) w).1.statusWrites =
        w.statusWrites ++
          [("FAILED", "Unexpected approval status '" ++ aS ++ "'")] ∧
      (callback env (HttpBehavior.resp 200 st bt) w).1.prints =
        w.prints ++ ["ERROR: Unexpected approval status '" ++ aS ++ "'\n"]) := by
  rw [callback_reduces env (HttpBehavior.resp 200 st bt) w hne hjson hs hc hr
    hu hfmt]
  refine ⟨fun hA => ?_, fun hR => ?_, fun hA hR => ?_⟩
  · have h := callbackSend_success env st bt w aS cm rO uN mods out mutp
      "APPROVED" hurl htok hstat houtp (formatInputsForPost_wellformed hfmt)
      (Or.inl ⟨hA, rfl⟩)
    exact ⟨h.1, h.2.1⟩
  · have h := callbackSend_success env st bt w aS cm rO uN mods out mutp
      "REJECTED" hurl htok hstat houtp (formatInputsForPost_wellformed hfmt)
      (Or.inr ⟨hR, rfl⟩)
    exact ⟨h.1, h.2.1⟩
  · have h := callbackSend_unexpected env st bt w aS cm rO uN mods out mutp
      hurl htok hstat hA hR
    exact ⟨h.1, h.2.1, h.2.2.1⟩

/-- C3 witness: an `APPROVED` payload against a 200 response ends the
invocation successfully with the `APPROVED` record written. -/
theorem callback_status_mapping_witness :
    (callback envCallbackEmptyInputs client200 World.empty).2 =
      RunResult.ok ∧
    (callback envCallbackEmptyInputs client200 World.empty).1.statusWrites =
      World.empty.statusWrites ++
        [("APPROVED", "Successfully changed workflow manual approval status")] :=
  (callback_status_mapping envCallbackEmptyInputs World.empty "200 OK"
    "\x7b\x7d" (by decide) rfl rfl rfl rfl rfl rfl (by decide) (by decide)
    (by decide) (by decide)).1 rfl

/-- C4 counterexample: on a success-path callback whose payload has an
empty `inputs` array the captured input-value map is empty, yet the
`approvalInputValues` artifact is still written (with content
`\x7b\x7d`) — refuting "written only when the captured input-value map
is non-empty".  The repository's own test
("success APPROVED - empty input values") asserts exactly this file
content. -/
theorem writeToOutputs_claim_counterexample :
    (callback envCallbackEmptyInputs client200 World.empty).2 =
      RunResult.ok ∧
    (callback envCallbackEmptyInputs client200 World.empty).1.outputs =
      [("approvalInputValues", "\x7b\x7d"), ("comments", "test comments1")] :=
  ⟨rfl, rfl⟩

/-- C4 (amended): on the callback success path the `approvalInputValues`
artifact is always written — the captured map is always allocated so the
nil-guard always passes — containing the JSON encoding of the captured
input-value map (`\x7b\x7d` when it is empty), and the `comments`
artifact is always written as the raw comment bytes, even when the
comments string is empty. -/
theorem callback_outputs_writes (env : Env) (w : World) (st bt : String)
    {fs mutp : List (String × GoValue)} {aS cm rO uN : String}
    {mods : List GoValue} {out : List (String × GoValue)}
    (hne : env "PAYLOAD" ≠ "")
    (hjson : jsonParse (env "PAYLOAD") = some (GoValue.obj fs))
    (hs : goIndex fs "status" = GoValue.str aS)
    (hc : goIndex fs "comments" = GoValue.str cm)
    (hr : goIndex fs "respondedOn" = GoValue.str rO)
    (hu : goIndex fs "userName" = GoValue.str uN)
    (hfmt : formatInputsForPost fs = PanicOr.ok (mods, out, mutp))
    (hurl : env "URL" ≠ "") (htok : env "API_TOKEN" ≠ "")
    (hstat : env "CLOUDBEES_STATUS" ≠ "")
    (houtp : env "CLOUDBEES_OUTPUTS" ≠ "")
    (hjob : aS = "UPDATE_MANUAL_APPROVAL_STATUS_APPROVED" ∨
      aS = "UPDATE_MANUAL_APPROVAL_STATUS_REJECTED") :
    (callback env (HttpBehavior.resp 200 st bt) w).1.outputs =
      w.outputs ++ [("approvalInputValues", jsonEncode (GoValue.obj out)),
        ("comments", cm)] := by
  rw [callback_reduces env (HttpBehavior.resp 200 st bt) w hne hjson hs hc hr
    hu hfmt]
  rcases hjob with hA | hR
  · exact (callbackSend_success env st bt w aS cm rO uN mods out mutp
      "APPROVED" hurl htok hstat houtp (formatInputsForPost_wellformed hfmt)
      (Or.inl ⟨hA, rfl⟩)).2.2
  · exact (callbackSend_success env st bt w aS cm rO uN mods out mutp
      "REJECTED" hurl htok hstat houtp (formatInputsForPost_wellformed hfmt)
      (Or.inr ⟨hR, rfl⟩)).2.2

/-- C4 witness: the amended statement at the empty-inputs payload — both
artifacts written, the input-value one holding `\x7b\x7d`. -/
theorem callback_outputs_writes_witness :
    (callback envCallbackEmptyInputs client200 World.empty).1.outputs =
      World.empty.outputs ++
        [("approvalInputValues", jsonEncode (GoValue.obj [])),
         ("comments", "test comments1")] :=
  callback_outputs_writes envCallbackEmptyInputs World.empty "200 OK"
    "\x7b\x7d" (by decide) rfl rfl rfl rfl rfl rfl (by decide) (by decide)
    (by decide) (by decide) (Or.inl rfl)

/-- C5: for every init or callback invocation whose POST yields a non-200
response, the handler prints the transport error and the raw response
body, writes a `FAILED` record whose message embeds the error text, and
returns that same transport error; if writing the `FAILED` record fails
(here: `CLOUDBEES_STATUS` missing), that write error is returned
instead. -/
theorem handlers_non200_failure_path (md : String → String)
    (envI envC : Env) (code : Nat) (st bt : String) (wI wC : World)
    (db nb : Bool)
    {fs mutp : List (String × GoValue)} {aS cm rO uN : String}
    {mods : List GoValue} {out : List (String × GoValue)}
    (hdb : parseGoBool (if envI "DISALLOW_LAUNCHED_BY_USER" = "" then "false"
      else envI "DISALLOW_LAUNCHED_BY_USER") = Except.ok db)
    (hnb : parseGoBool (if envI "NOTIFY_ALL_ELIGIBLE_USERS" = "" then "false"
      else envI "NOTIFY_ALL_ELIGIBLE_USERS") = Except.ok nb)
    (hurlI : envI "URL" ≠ "") (htokI : envI "API_TOKEN" ≠ "")
    (hneC : envC "PAYLOAD" ≠ "")
    (hjsonC : jsonParse (envC "PAYLOAD") = some (GoValue.obj fs))
    (hsC : goIndex fs "status" = GoValue.str aS)
    (hcC : goIndex fs "comments" = GoValue.str cm)
    (hrC : goIndex fs "respondedOn" = GoValue.str rO)
    (huC : goIndex fs "userName" = GoValue.str uN)
    (hfmtC : formatInputsForPost fs = PanicOr.ok (mods, out, mutp))
    (hurlC : envC "URL" ≠ "") (htokC : envC "API_TOKEN" ≠ "")
    (hcode : code ≠ 200) :
    ((init md envI (HttpBehavior.resp code st bt) wI).1.prints = wI.prints ++
      ["ERROR: API call failed with error: '" ++
        transportError (joinPath (envI "URL") "/v1/workflows/approval")
          code st ++ "'\n",
       "ERROR: API response: '" ++ bt ++ "'\n"] ∧
    (envI "CLOUDBEES_STATUS" ≠ "" →
      (init md envI (HttpBehavior.resp code st bt) wI).1.statusWrites =
        wI.statusWrites ++
          [("FAILED", "Failed to initialize workflow manual approval request: '"
            ++ transportError (joinPath (envI "URL") "/v1/workflows/approval")
              code st ++ "'")] ∧
      (init md envI (HttpBehavior.resp code st bt) wI).2 =
        RunResult.err (transportError (joinPath (envI "URL")
          "/v1/workflows/approval") code st)) ∧
    (envI "CLOUDBEES_STATUS" = "" →
      (init md envI (HttpBehavior.resp code st bt) wI).1.statusWrites =
        wI.statusWrites ∧
      (init md envI (HttpBehavior.resp code st bt) wI).2 =
        RunResult.err "CLOUDBEES_STATUS environment variable missing")) ∧
    ((callback envC (HttpBehavior.resp code st bt) wC).1.prints =
      wC.prints ++
        ["ERROR: API call failed with error: '" ++
          transportError (joinPath (envC "URL")
            "/v1/workflows/approval/status") code st ++ "'\n",
         "ERROR: API response: '" ++ bt ++ "'\n"] ∧
    (envC "CLOUDBEES_STATUS" ≠ "" →
      (callback envC (HttpBehavior.resp code st bt) wC).1.statusWrites =
        wC.statusWrites ++
          [("FAILED", "Failed to change workflow manual approval status: '" ++
            transportError (joinPath (envC "URL")
              "/v1/workflows/approval/status") code st ++ "'")] ∧
      (callback envC (HttpBehavior.resp code st bt) wC).2 =
        RunResult.err (transportError (joinPath (envC "URL")
          "/v1/workflows/approval/status") code st)) ∧
    (envC "CLOUDBEES_STATUS" = "" →
      (callback envC (HttpBehavior.resp code st bt) wC).1.statusWrites =
        wC.statusWrites ∧
      (callback envC (HttpBehavior.resp code st bt) wC).2 =
        RunResult.err "CLOUDBEES_STATUS environment variable missing")) := by
  constructor
  · exact init_non200 md envI code st bt wI db nb hdb hnb hurlI htokI hcode
  · rw [callback_reduces envC (HttpBehavior.resp code st bt) wC hneC hjsonC
      hsC hcC hrC huC hfmtC]
    exact callbackSend_non200 envC code st bt wC aS cm rO uN mods out mutp
      hurlC htokC hcode

/-- C5 witness: both handlers against a 500 response with
`CLOUDBEES_STATUS` configured — each prints the two error lines, records
the embedding `FAILED` message, and returns the transport error. -/
theorem handlers_non200_failure_path_witness :
    (init id (envOf [("URL", "http://test.com"), ("API_TOKEN", "test"),
        ("CLOUDBEES_STATUS", "/tmp/test-status-out")])
        (HttpBehavior.resp 500 "500 Internal Server Error" "wrong parameter")
        World.empty).2 =
      RunResult.err (transportError
        (joinPath "http://test.com" "/v1/workflows/approval") 500
        "500 Internal Server Error") ∧
    (init id (envOf [("URL", "http://test.com"), ("API_TOKEN", "test"),
        ("CLOUDBEES_STATUS", "/tmp/test-status-out")])
        (HttpBehavior.resp 500 "500 Internal Server Error" "wrong parameter")
        World.empty).1.statusWrites =
      World.empty.statusWrites ++
        [("FAILED", "Failed to initialize workflow manual approval request: '"
          ++ transportError (joinPath "http://test.com"
            "/v1/workflows/approval") 500 "500 Internal Server Error" ++ "'")] ∧
    (callback envCallbackEmptyInputs
        (HttpBehavior.resp 500 "500 Internal Server Error" "wrong parameter")
        World.empty).2 =
      RunResult.err (transportError
        (joinPath "http://test.com" "/v1/workflows/approval/status") 500
        "500 Internal Server Error") ∧
    (callback envCallbackEmptyInputs
        (HttpBehavior.resp 500 "500 Internal Server Error" "wrong parameter")
        World.empty).1.prints =
      World.empty.prints ++
        ["ERROR: API call failed with error: '" ++ transportError
          (joinPath "http://test.com" "/v1/workflows/approval/status") 500
          "500 Internal Server Error" ++ "'\n",
         "ERROR: API response: 'wrong parameter'\n"] := by
  have h := handlers_non200_failure_path id
    (envOf [("URL", "http://test.com"), ("API_TOKEN", "test"),
      ("CLOUDBEES_STATUS", "/tmp/test-status-out")])
    envCallbackEmptyInputs 500 "500 Internal Server Error" "wrong parameter"
    World.empty World.empty false false (by rfl) (by rfl) (by decide)
    (by decide) (by decide) rfl rfl rfl rfl rfl rfl (by decide) (by decide)
    (by decide)
  exact ⟨(h.1.2.1 (by decide)).2, (h.1.2.1 (by decide)).1,
    (h.2.2.1 (by decide)).2, h.2.1⟩

/-- C10: for every callback invocation whose POST succeeds and whose
status maps to `APPROVED` or `REJECTED` but with `CLOUDBEES_OUTPUTS`
unset, the handler returns the error
`CLOUDBEES_OUTPUTS environment variable missing` and no status record is
written at all — the status file records neither outcome although the
remote status change succeeded. -/
theorem callback_missing_outputs_dir (env : Env) (w : World)
    (st bt : String)
    {fs mutp : List (String × GoValue)} {aS cm rO uN : String}
    {mods : List GoValue} {out : List (String × GoValue)}
    (hne : env "PAYLOAD" ≠ "")
    (hjson : jsonParse (env "PAYLOAD") = some (GoValue.obj fs))
    (hs : goIndex fs "status" = GoValue.str aS)
    (hc : goIndex fs "comments" = GoValue.str cm)
    (hr : goIndex fs "respondedOn" = GoValue.str rO)
    (hu : goIndex fs "userName" = GoValue.str uN)
    (hfmt : formatInputsForPost fs = PanicOr.ok (mods, out, mutp))
    (hurl : env "URL" ≠ "") (htok : env "API_TOKEN" ≠ "")
    (houtp : env "CLOUDBEES_OUTPUTS" = "")
    (hjob : aS = "UPDATE_MANUAL_APPROVAL_STATUS_APPROVED" ∨
      aS = "UPDATE_MANUAL_APPROVAL_STATUS_REJECTED") :
    (callback env (HttpBehavior.resp 200 st bt) w).2 =
      RunResult.err "CLOUDBEES_OUTPUTS environment variable missing" ∧
    (callback env (HttpBehavior.resp 200 st bt) w).1.statusWrites =
      w.statusWrites := by
  rw [callback_reduces env (HttpBehavior.resp 200 st bt) w hne hjson hs hc hr
    hu hfmt]
  rcases hjob with hA | hR
  · exact callbackSend_missing_outputs env st bt w aS cm rO uN mods out mutp
      "APPROVED" hurl htok houtp (formatInputsForPost_wellformed hfmt)
      (Or.inl ⟨hA, rfl⟩)
  · exact callbackSend_missing_outputs env st bt w aS cm rO uN mods out mutp
      "REJECTED" hurl htok houtp (formatInputsForPost_wellformed hfmt)
      (Or.inr ⟨hR, rfl⟩)

/-- C10 witness: the `APPROVED` empty-inputs payload with
`CLOUDBEES_OUTPUTS` unset — the invocation fails with the missing-variable
error and the status file is never written. -/
theorem callback_missing_outputs_dir_witness :
    (callback envCallbackNoOutputs client200 World.empty).2 =
      RunResult.err "CLOUDBEES_OUTPUTS environment variable missing" ∧
    (callback envCallbackNoOutputs client200 World.empty).1.statusWrites =
      World.empty.statusWrites :=
  callback_missing_outputs_dir envCallbackNoOutputs World.empty "200 OK"
    "\x7b\x7d" (by decide) rfl rfl rfl rfl rfl rfl (by decide) (by decide)
    rfl (Or.inl rfl)

end ManualApproval
